import Mathlib

/-!
# LoopHashTag.user.js: a shallow embedding

The user script keeps a store of tags, watches keystrokes for a `#` trigger,
shows a suggestion list and replaces the typed span by `#tag `.

Modelling conventions.

* A JavaScript string is a `List Char`.  Offsets into the text of a surface and
  the lengths of text count `Char`s, which is the count of UTF-16 code units on
  text of the Basic Multilingual Plane; the test `key.length === 1` of the
  keyboard handler is made in code units (`utf16Length`), so that a key holding
  one character outside that plane has length 2, as in the source.  Strings are
  compared `Char` by `Char`, the order of `Array.prototype.sort` without a
  comparator.
* The storage slot `STORAGE_KEY` holds a JSON array of strings; the model keeps
  the array itself (`JSON.stringify` followed by `JSON.parse` is the identity on
  arrays of strings).
* Platform built-ins whose tables are not part of the script (`toLowerCase`,
  `JSON.parse`) are fields of `Platform`.
* An editable element is a `Surface`, addressed by its index in the page.  A
  structured (contentEditable) surface is the document-order list of the text
  nodes below it, which is what the `TreeWalker` of `applyTagSelection`
  enumerates; the selection is a collapsed caret.
* `setTimeout(f, 0)` queues `f`; the queue is run after the default action of
  the keystroke.
-/

namespace LoopHashTag

/-- JavaScript string. -/
abbrev Str := List Char

/-- Whether a character is a single UTF-16 code unit. -/
def isCodeUnit (c : Char) : Bool := decide (c.toNat < 0x10000)

/-- `s.length` of JavaScript, the number of UTF-16 code units: a character
outside the Basic Multilingual Plane is a surrogate pair. -/
def utf16Length : Str → Nat
  | [] => 0
  | c :: s => (if isCodeUnit c then 1 else 2) + utf16Length s

/-! ## String built-ins used by the script -/

/-- WhiteSpace and LineTerminator code units, the ones `String.prototype.trim`
strips. -/
def isWhiteSpace (c : Char) : Bool :=
  let n := c.toNat
  n == 0x09 || n == 0x0A || n == 0x0B || n == 0x0C || n == 0x0D || n == 0x20 ||
  n == 0xA0 || n == 0x1680 || (0x2000 ≤ n && n ≤ 0x200A) || n == 0x2028 ||
  n == 0x2029 || n == 0x202F || n == 0x205F || n == 0x3000 || n == 0xFEFF

/-- `s.trim()`. -/
def trim (s : Str) : Str :=
  ((s.dropWhile isWhiteSpace).reverse.dropWhile isWhiteSpace).reverse

/-- `s.startsWith(p)`. -/
def startsWith : Str → Str → Bool
  | _, [] => true
  | [], _ :: _ => false
  | c :: s, d :: p => c == d && startsWith s p

/-- `s.includes(q)`: `q` occurs in `s` as a contiguous run. -/
def includes : Str → Str → Bool
  | [], q => startsWith [] q
  | c :: s, q => startsWith (c :: s) q || includes s q

/-- `t.replace(/^#/, '')`: one leading `#` removed. -/
def stripHash : Str → Str
  | '#' :: s => s
  | s => s

/-- Pieces of `s.split(/\r?\n/)`: `cur` is the piece being read, reversed. -/
def splitLinesAux : Str → Str → List Str
  | [], cur => [cur.reverse]
  | '\r' :: '\n' :: s, cur => cur.reverse :: splitLinesAux s []
  | '\n' :: s, cur => cur.reverse :: splitLinesAux s []
  | c :: s, cur => splitLinesAux s (c :: cur)

/-- `s.split(/\r?\n/)`. -/
def splitLines (s : Str) : List Str := splitLinesAux s []

/-- Comparison of two strings by code units, the order of `sort()` without a
comparator: `strLt a b` is `a < b` in JavaScript. -/
def strLt : Str → Str → Bool
  | _, [] => false
  | [], _ :: _ => true
  | a :: s, b :: t => a.toNat < b.toNat || (a.toNat == b.toNat && strLt s t)

/-- Insertion of one string into a sorted list, before the first greater one. -/
def sortInsert (x : Str) : List Str → List Str
  | [] => [x]
  | y :: ys => if strLt y x then y :: sortInsert x ys else x :: y :: ys

/-- `arr.sort()` on an array of strings. -/
def jsSort : List Str → List Str
  | [] => []
  | x :: xs => sortInsert x (jsSort xs)

/-- Elements of `[...new Set(xs)]` not already in `seen`: first occurrences, in
insertion order. -/
def setOfAux : List Str → List Str → List Str
  | _, [] => []
  | seen, x :: xs => if x ∈ seen then setOfAux seen xs else x :: setOfAux (x :: seen) xs

/-- `[...new Set(xs)]`. -/
def setOf (xs : List Str) : List Str := setOfAux [] xs

/-- Value produced by `JSON.parse`. -/
inductive JVal where
  | null
  | bool (b : Bool)
  | num (n : Int)
  | str (s : Str)
  | arr (xs : List JVal)
  | obj (kvs : List (Str × JVal))

/-- Built-ins of the platform the script relies on. -/
structure Platform where
  /-- `String.prototype.toLowerCase`. -/
  toLowerCase : Str → Str
  /-- `JSON.parse`; `none` when it throws a `SyntaxError`. -/
  jsonParse : Str → Option JVal

/-! ## Storage helpers -/

/-- `loadTags()`: the array held in the storage slot. -/
def loadTags (storage : List Str) : List Str := storage

/-- `saveTags(tags)`: the new content of the storage slot. -/
def saveTags (tags : List Str) : List Str := jsSort (setOf tags)

/-- `addTag(tag)`. -/
def addTag (storage : List Str) (tag : Str) : List Str :=
  let tag := trim tag
  if tag.isEmpty then storage
  else
    let tags := loadTags storage
    if tags.contains tag then storage else saveTags (tags ++ [tag])

/-- `removeTag(tag)`. -/
def removeTag (storage : List Str) (tag : Str) : List Str :=
  saveTags ((loadTags storage).filter (fun t => t != tag))

/-- The strings of a parsed array, `none` when an element is not a string (the
call `t.replace` then throws a `TypeError`). -/
def stringsOf : List JVal → Option (List Str)
  | [] => some []
  | JVal.str s :: xs => (stringsOf xs).map (fun r => s :: r)
  | _ :: _ => none

/-- `importTagsFromString(str)`. -/
def importTagsFromString (P : Platform) (storage : List Str) (str : Str) : List Str :=
  if str.isEmpty then storage
  else
    let trimmed := trim str
    let parsed : List JVal :=
      if startsWith trimmed ['['] then
        match P.jsonParse trimmed with
        | some (JVal.arr xs) => xs
        | _ => []
      else []
    let imported : Option (List Str) :=
      if parsed.isEmpty then
        some (((splitLines trimmed).map trim).filter (fun l => !l.isEmpty))
      else stringsOf parsed
    match imported with
    | none => storage
    | some imported =>
      let imported := (imported.map (fun t => trim (stripHash t))).filter (fun t => !t.isEmpty)
      if imported.isEmpty then storage
      else
        let existing := loadTags storage
        let merged := jsSort (setOf (existing ++ imported))
        saveTags merged

/-! ## The page -/

/-- What the normalisation of an element container finds next to the caret. -/
inductive Adjacent where
  /-- No text node: the examined child is missing, or its deepest descendant
  is an element. -/
  | none
  /-- `childNodes.length > 0 && offset > 0` and the deepest last descendant of
  `childNodes[offset - 1]` is a text node. -/
  | before
  /-- Otherwise, and the deepest first descendant of `childNodes[offset]` is a
  text node. -/
  | after
deriving DecidableEq, Repr

/-- Position of the selection's end inside a structured surface. -/
inductive Caret where
  /-- The end container is text node number `idx` of the surface, `offset` code
  units into its data. -/
  | text (idx : Nat) (offset : Nat)
  /-- The end container is an element; `gap` text nodes of the surface precede
  the caret in document order, so that a text node found `before` is node
  `gap - 1` and one found `after` is node `gap`. -/
  | element (gap : Nat) (adjacent : Adjacent)
deriving DecidableEq, Repr

/-- An editable element of the page. -/
inductive Surface where
  /-- A `TEXTAREA` or an `INPUT` of type text. -/
  | flat (value : Str) (selectionStart : Nat) (selectionEnd : Nat)
  /-- A contentEditable element: the data of the text nodes below it, in
  document order. -/
  | structured (nodes : List Str)
deriving DecidableEq, Repr

/-- Event types fired by `notifyContentEditableInput`. -/
inductive Phase where
  | beforeinput
  | input
deriving DecidableEq, Repr

/-- One `dispatchEvent` call of the script: its target (the surface the target
element lies in), the event, and the text nodes of that surface as a listener
finds them during the dispatch. -/
structure Dispatched where
  target : Nat
  phase : Phase
  inputType : Str
  data : Str
  seen : Option Surface
deriving DecidableEq, Repr

/-- The suggestion list element `#tm-tag-helper-dropdown`. -/
structure Dropdown where
  /-- Whether `style.display` differs from `none`. -/
  shown : Bool
  /-- The `textContent` of the children. -/
  children : List Str
deriving DecidableEq, Repr

/-- The script's variables together with the part of the page it reads and
writes. -/
structure State where
  /-- Content of the storage slot. -/
  storage : List Str
  /-- The element found by `document.getElementById(TAG_DROPDOWN_ID)`. -/
  dd : Option Dropdown
  activeDropdownIndex : Int
  /-- The editor captured by the closure stored in `dropdownSelectCallback`. -/
  dropdownSelectCallback : Option Nat
  /-- Whether the tag manager exists with `style.display === 'block'`. -/
  managerVisible : Bool
  isTagMode : Bool
  currentTagText : Str
  tagStartOffset : Option Nat
  /-- The editable elements of the page. -/
  surfaces : List Surface
  /-- The element `document.activeElement`; an index outside `surfaces` is an
  element that is not an editor. -/
  activeElement : Option Nat
  /-- The range of `window.getSelection()`: the surface its end lies in and the
  end position; `none` when `rangeCount` is zero. -/
  selection : Option (Nat × Caret)
  /-- The dispatches that some listener of the page answers with
  `preventDefault()`. -/
  cancels : List (Phase × Nat)
  /-- Record of the dispatches made so far, oldest first. -/
  events : List Dispatched
  /-- Editors of the queued `setTimeout` callbacks, oldest first. -/
  timers : List Nat

/-- The script right after loading, on a page with the given surfaces. -/
def State.init (surfaces : List Surface) (activeElement : Option Nat)
    (selection : Option (Nat × Caret)) (cancels : List (Phase × Nat)) : State :=
  { storage := [], dd := none, activeDropdownIndex := -1, dropdownSelectCallback := none,
    managerVisible := false, isTagMode := false, currentTagText := [], tagStartOffset := none,
    surfaces := surfaces, activeElement := activeElement, selection := selection,
    cancels := cancels, events := [], timers := [] }

/-! ## Dropdown helpers -/

/-- `dd && dd.style.display !== 'none'`. -/
def dropdownVisible (s : State) : Bool :=
  match s.dd with
  | some d => d.shown
  | none => false

/-- `hideDropdown()`. -/
def hideDropdown (s : State) : State :=
  { s with dd := s.dd.map (fun d => { d with shown := false }), activeDropdownIndex := -1 }

/-- `setActiveDropdownIndex(idx)` (the background colours are not kept). -/
def setActiveDropdownIndex (s : State) (idx : Int) : State :=
  match s.dd with
  | none => s
  | some d => if d.children.isEmpty then s else { s with activeDropdownIndex := idx }

/-- `showDropdown(items, rect, onSelect)`; the placement computed from `rect`
is not kept. -/
def showDropdown (s : State) (items : List Str) (onSelect : Nat) : State :=
  let shown := match s.dd with
    | some d => d.shown
    | none => false
  let s := { s with dd := some { shown := shown, children := [] },
                    dropdownSelectCallback := some onSelect,
                    activeDropdownIndex := if items.isEmpty then -1 else 0 }
  if items.isEmpty then hideDropdown s
  else
    let s := { s with dd := some { shown := true, children := items } }
    setActiveDropdownIndex s 0

/-- `moveDropdownSelection(delta)`. -/
def moveDropdownSelection (s : State) (delta : Int) : State :=
  match s.dd with
  | none => s
  | some d =>
    if d.children.isEmpty then s
    else
      let len : Int := d.children.length
      let newIndex := if s.activeDropdownIndex < 0 then 0
        else Int.tmod (s.activeDropdownIndex + delta + len) len
      setActiveDropdownIndex s newIndex

/-- The argument `pickDropdownSelection()` passes to the callback, and the
captured editor: `none` when it returns without calling it, also when the
index lies outside the children and reading `textContent` throws. -/
def pickedTag (s : State) : Option (Nat × Str) :=
  match s.dd with
  | none => none
  | some d =>
    if d.children.isEmpty || s.activeDropdownIndex < 0 then none
    else
      match d.children[s.activeDropdownIndex.toNat]?, s.dropdownSelectCallback with
      | some tag, some editor => if tag.isEmpty then none else some (editor, tag)
      | _, _ => none

/-! ## Editor helpers -/

/-- `getActiveEditor()`. -/
def getActiveEditor (s : State) : Option Nat :=
  match s.activeElement with
  | none => none
  | some el => if s.surfaces[el]?.isSome then some el else none

/-- The dispatches of `notifyContentEditableInput(root, dataText, inputType,
phases)` in order, each with its result (`false` when prevented). -/
def dispatches (s : State) (root : Nat) (data inputType : Str) (phases : List Phase) :
    List (Dispatched × Bool) :=
  let targets := match s.activeElement with
    | some el => if el != root then [root, el] else [root]
    | none => [root]
  let toFire := if phases.isEmpty then [Phase.beforeinput, Phase.input] else phases
  targets.flatMap (fun t => toFire.map (fun ph =>
    ({ target := t, phase := ph, inputType := inputType, data := data,
       seen := s.surfaces[t]? }, !(s.cancels.contains (ph, t)))))

/-- `notifyContentEditableInput(root, dataText, inputType, phases)`: the state
with the dispatches recorded, and the returned `ok` and `prevented`. -/
def notifyContentEditableInput (s : State) (root : Nat) (data inputType : Str)
    (phases : List Phase) : State × Bool × Bool :=
  let ds := dispatches s root data inputType phases
  ({ s with events := s.events ++ ds.map Prod.fst },
   ds.all (fun d => d.2),
   ds.any (fun d => d.1.phase == Phase.beforeinput && !d.2))

/-! ## Tag state -/

/-- `resetTagState()`. -/
def resetTagState (s : State) : State :=
  hideDropdown { s with isTagMode := false, currentTagText := [], tagStartOffset := none }

/-- `updateDropdownForCurrentTag(editor)`. -/
def updateDropdownForCurrentTag (P : Platform) (s : State) (editor : Nat) : State :=
  if !s.isTagMode then hideDropdown s
  else
    let allTags := loadTags s.storage
    let q := P.toLowerCase s.currentTagText
    let matched := (allTags.filter (fun t => includes (P.toLowerCase t) q)).take 20
    if matched.isEmpty then hideDropdown s
    else showDropdown s matched editor

/-! ## Replacing the typed span -/

/-- The text node the caret is taken to be in after "Ensure we have a text node
near the caret", with the offset; `none` when the container stays an element. -/
def caretContainer (nodes : List Str) : Caret → Option (Nat × Nat)
  | Caret.text idx offset => some (idx, offset)
  | Caret.element gap Adjacent.before => some (gap - 1, (nodes.getD (gap - 1) []).length)
  | Caret.element gap Adjacent.after => some (gap, 0)
  | Caret.element _ Adjacent.none => none

/-- The loop `for (let i = idx; i >= 0 && remaining > 0; i--)` entered at `i`
with `remaining` left; `start` is the current `(startNode, startOffset)`. -/
def backwardWalk (nodes : List Str) (idx offset : Nat) : Nat → Nat → Nat × Nat → Nat × Nat
  | i, remaining, start =>
    if remaining = 0 then start
    else
      let len := (nodes.getD i []).length
      if i = idx then
        if offset ≥ remaining then (i, offset - remaining)
        else
          match i with
          | 0 => start
          | j + 1 => backwardWalk nodes idx offset j (remaining - offset) start
      else
        if len ≥ remaining then (i, len - remaining)
        else
          match i with
          | 0 => start
          | j + 1 => backwardWalk nodes idx offset j (remaining - len) start

/-- The start boundary `(startNode, startOffset)` found for the caret at
`offset` in `nodes[idx]` and `targetLen = currentTagText.length + 1`. -/
def resolveStart (nodes : List Str) (idx offset targetLen : Nat) : Nat × Nat :=
  backwardWalk nodes idx offset idx targetLen (idx, offset)

/-- Text nodes after `deleteContents()` on the range from `(si, so)` to
`(ei, eo)` followed by `insertNode` of a text node holding `ins`: the start
node keeps its data before `so`, the end node (the second half of a split
node when both are the same) keeps its data from `eo` on, the nodes between
them are removed. -/
def replaceNodes (nodes : List Str) (si so ei eo : Nat) (ins : Str) : List Str :=
  nodes.take si ++ [(nodes.getD si []).take so, ins, (nodes.getD ei []).drop eo] ++
    nodes.drop (ei + 1)

/-- Text nodes after `range.insertNode` of a text node holding `ins` at an
element position preceded by `gap` text nodes. -/
def insertNodeAt (nodes : List Str) (gap : Nat) (ins : Str) : List Str :=
  nodes.take gap ++ [ins] ++ nodes.drop gap

/-- Update of the text nodes of the structured surface `host`; text outside the
surfaces of the page is not kept. -/
def modifyNodes (surfaces : List Surface) (host : Nat) (f : List Str → List Str) :
    List Surface :=
  match surfaces[host]? with
  | some (Surface.structured nodes) => surfaces.set host (Surface.structured (f nodes))
  | _ => surfaces

/-- Text nodes of a surface; none for a flat one. -/
def nodesOf (surfaces : List Surface) (i : Nat) : List Str :=
  match surfaces[i]? with
  | some (Surface.structured nodes) => nodes
  | _ => []

/-- `applyTagSelection(editor, tag)`. -/
def applyTagSelection (s : State) (editor : Nat) (tag : Str) : State :=
  let insertText := '#' :: tag ++ [' ']
  match s.surfaces[editor]? with
  | none => s
  | some (Surface.flat value selectionStart _) =>
    match s.tagStartOffset with
    | none => s
    | some start =>
      let end_ := selectionStart
      let before := value.take start
      let after := value.drop end_
      let newValue := before ++ insertText ++ after
      let newCaret := before.length + insertText.length
      let s := { s with surfaces := s.surfaces.set editor (Surface.flat newValue newCaret newCaret) }
      let s := { s with storage := addTag s.storage tag }
      resetTagState s
  | some (Surface.structured nodes) =>
    match s.selection with
    | none =>
      let s := { s with storage := addTag s.storage tag }
      resetTagState s
    | some (host, caret) =>
      let contentRoot := editor
      let hostNodes := nodesOf s.surfaces host
      match caretContainer hostNodes caret with
      | none =>
        let gap := match caret with
          | Caret.element gap _ => gap
          | Caret.text idx _ => idx
        let s := { s with surfaces := modifyNodes s.surfaces host (fun ns => insertNodeAt ns gap insertText),
                          selection := some (host, Caret.element (gap + 1) Adjacent.before) }
        let s := { s with storage := addTag s.storage tag }
        let s := (notifyContentEditableInput s host insertText "insertText".toList []).1
        resetTagState s
      | some (container, offset) =>
        let targetLen := s.currentTagText.length + 1
        let found := host == editor && decide (container < nodes.length)
        let start := if found then resolveStart nodes container offset targetLen
          else (container, offset)
        let s := { s with selection := some (host, Caret.text container offset) }
        let beforeEvt := notifyContentEditableInput s contentRoot insertText
          "insertReplacementText".toList [Phase.beforeinput]
        let s := beforeEvt.1
        if beforeEvt.2.2 then
          let s := { s with storage := addTag s.storage tag }
          resetTagState s
        else
          let s := { s with surfaces := modifyNodes s.surfaces host
                              (fun ns => replaceNodes ns start.1 start.2 container offset insertText),
                            selection := some (host, Caret.element (start.1 + 2) Adjacent.before) }
          let s := (notifyContentEditableInput s host insertText
            "insertReplacementText".toList [Phase.input]).1
          let s := { s with storage := addTag s.storage tag }
          resetTagState s

/-! ## Keyboard handling -/

/-- A `keydown` event as `handleKeydown` reads it. -/
structure KeyEvent where
  key : Str
  /-- `e.keyCode || e.which`, zero when neither is set. -/
  keyCode : Nat
  ctrlKey : Bool
  metaKey : Bool
  altKey : Bool
  /-- The mark `e._tmTagHandler` left by an earlier run of the handler. -/
  tmTagHandler : Bool
deriving DecidableEq, Repr

/-- What the handler did to the event. -/
structure Handled where
  defaultPrevented : Bool
  propagationStopped : Bool
deriving DecidableEq, Repr

/-- The handler left the event alone. -/
def Handled.passed : Handled := { defaultPrevented := false, propagationStopped := false }

/-- Both `e.preventDefault()` and `e.stopPropagation()` were called. -/
def Handled.consumed : Handled := { defaultPrevented := true, propagationStopped := true }

def isDownKey (e : KeyEvent) : Bool :=
  e.key == "ArrowDown".toList || e.key == "Down".toList || e.keyCode == 40

def isUpKey (e : KeyEvent) : Bool :=
  e.key == "ArrowUp".toList || e.key == "Up".toList || e.keyCode == 38

def isEnterLike (e : KeyEvent) : Bool :=
  e.key == "Enter".toList || e.key == "Return".toList || e.keyCode == 13

def isSpaceLike (e : KeyEvent) : Bool :=
  e.key == [' '] || e.keyCode == 32

def isTabLike (e : KeyEvent) : Bool :=
  e.key == "Tab".toList || e.keyCode == 9

/-- `/[.,;:!?]/.test(key)`. -/
def isPunctuation (e : KeyEvent) : Bool :=
  e.key.any (fun c => c == '.' || c == ',' || c == ';' || c == ':' || c == '!' || c == '?')

/-- `hideTagManager()`. -/
def hideTagManager (s : State) : State := { s with managerVisible := false }

/-- `pickDropdownSelection()`: the callback of the list applies the tag to the
editor it captured. -/
def pickDropdownSelection (s : State) : State :=
  match pickedTag s with
  | some (editor, tag) => applyTagSelection s editor tag
  | none => s

/-- `handleKeydown(e)`. -/
def handleKeydown (s : State) (e : KeyEvent) : State × Handled :=
  if e.tmTagHandler then (s, Handled.passed)
  else if s.managerVisible && e.key == "Escape".toList then
    (hideTagManager s, { defaultPrevented := true, propagationStopped := false })
  else if dropdownVisible s && (isDownKey e || isUpKey e) then
    (moveDropdownSelection s (if isDownKey e then 1 else -1), Handled.consumed)
  else if dropdownVisible s && (isEnterLike e || isTabLike e || isSpaceLike e) then
    (pickDropdownSelection s, Handled.consumed)
  else if dropdownVisible s && e.key == "Escape".toList then
    (resetTagState s, Handled.consumed)
  else
    match getActiveEditor s with
    | none => (s, Handled.passed)
    | some editor =>
      if e.key == ['#'] then
        let tagStartOffset := match s.surfaces[editor]? with
          | some (Surface.flat _ selectionStart _) => some selectionStart
          | _ => none
        ({ s with isTagMode := true, currentTagText := [], tagStartOffset := tagStartOffset,
                  timers := s.timers ++ [editor] }, Handled.passed)
      else if !s.isTagMode then (s, Handled.passed)
      else if isEnterLike e || isSpaceLike e || isTabLike e || isPunctuation e then
        let trimmed := trim s.currentTagText
        if trimmed.length > 0 then
          if isSpaceLike e && !dropdownVisible s then
            (applyTagSelection s editor trimmed, Handled.consumed)
          else
            (resetTagState { s with storage := addTag s.storage trimmed }, Handled.consumed)
        else (resetTagState s, Handled.consumed)
      else if e.key == "Backspace".toList then
        if s.currentTagText.length > 0 then
          ({ s with currentTagText := s.currentTagText.dropLast,
                    timers := s.timers ++ [editor] }, Handled.passed)
        else (resetTagState s, Handled.passed)
      else if utf16Length e.key == 1 && !e.ctrlKey && !e.metaKey && !e.altKey then
        ({ s with currentTagText := s.currentTagText ++ e.key,
                  timers := s.timers ++ [editor] }, Handled.passed)
      else (s, Handled.passed)

/-! ## The platform around the handler -/

/-- Runs the queued `setTimeout` callbacks, oldest first. -/
def runTimers (P : Platform) (s : State) : State :=
  s.timers.foldl (updateDropdownForCurrentTag P) { s with timers := [] }

/-- Default action of a keystroke that was not prevented, as far as the model
follows it: a single character typed without control, meta or alt key into the
focused flat surface replaces the selection, and the caret moves behind it. -/
def defaultAction (s : State) (e : KeyEvent) : State :=
  if e.key.length == 1 && !e.ctrlKey && !e.metaKey && !e.altKey then
    match s.activeElement with
    | none => s
    | some el =>
      match s.surfaces[el]? with
      | some (Surface.flat value selectionStart selectionEnd) =>
        let newValue := value.take selectionStart ++ e.key ++ value.drop selectionEnd
        let caret := selectionStart + 1
        { s with surfaces := s.surfaces.set el (Surface.flat newValue caret caret) }
      | _ => s
  else s

/-- One keystroke: the capturing handler, then the default action unless
prevented, then the callbacks queued with `setTimeout`. -/
def keystroke (P : Platform) (s : State) (e : KeyEvent) : State :=
  let r := handleKeydown s e
  runTimers P (if r.2.defaultPrevented then r.1 else defaultAction r.1 e)

/-- A sequence of keystrokes. -/
def keystrokes (P : Platform) (s : State) (es : List KeyEvent) : State :=
  es.foldl (keystroke P) s

/-- The user moves the focus to element `el`. -/
def focus (s : State) (el : Nat) : State := { s with activeElement := some el }

/-- A keystroke of the single character `c` with key code `code`, no modifier. -/
def charKey (c : Char) (code : Nat) : KeyEvent :=
  { key := [c], keyCode := code, ctrlKey := false, metaKey := false, altKey := false,
    tmTagHandler := false }

/-- A keystroke of a named key with key code `code`, no modifier. -/
def namedKey (name : Str) (code : Nat) : KeyEvent :=
  { key := name, keyCode := code, ctrlKey := false, metaKey := false, altKey := false,
    tmTagHandler := false }

/-- The text of a surface, its text nodes concatenated. -/
def textOf : Surface → Str
  | Surface.flat value _ _ => value
  | Surface.structured nodes => nodes.flatten

/-! ## Vocabulary of the statements -/

/-- Number of code units that precede text node `i` in document order. -/
def charsBefore (nodes : List Str) (i : Nat) : Nat := (nodes.take i).flatten.length

/-- Strictly increasing in the order of `sort()`: sorted without repetition. -/
def StrictlySorted (l : List Str) : Prop := l.Pairwise (fun a b => strLt a b = true)

/-- Whether some listener prevents the `beforeinput` event that
`notifyContentEditableInput` fires at `root` and at the active element. -/
def vetoes (s : State) (root : Nat) : Bool :=
  s.cancels.contains (Phase.beforeinput, root) ||
    match s.activeElement with
    | some el => s.cancels.contains (Phase.beforeinput, el)
    | none => false

/-- Number of code units before a caret in document order. -/
def caretPos (nodes : List Str) : Caret → Nat
  | Caret.text idx offset => charsBefore nodes idx + offset
  | Caret.element gap _ => charsBefore nodes gap

/-- A state for the examples: one structured surface holding the
text nodes `#a` and `b`, focused, the caret at the end of `b`, the buffer `ab`;
`cancels` lists the prevented dispatches. -/
def demoStructured (cancels : List (Phase × Nat)) : State :=
  { State.init [Surface.structured ["#a".toList, "b".toList]] (some 0)
      (some (0, Caret.text 1 1)) cancels with
    isTagMode := true, currentTagText := "ab".toList }

/-- A state for the examples: one flat surface holding `say #wo now`, focused,
the caret behind `#wo`, the trigger recorded at offset 4, the buffer `wo`. -/
def demoFlat : State :=
  { State.init [Surface.flat "say #wo now".toList 7 7] (some 0) none [] with
    isTagMode := true, currentTagText := "wo".toList, tagStartOffset := some 4 }

/-- The state after `k` calls of `moveDropdownSelection(delta)`. -/
def moveMany (delta : Int) : Nat → State → State
  | 0, s => s
  | k + 1, s => moveDropdownSelection (moveMany delta k s) delta

/-- A state for the examples: one flat surface holding `#x`, focused, the caret
at its end, the buffer `x`, the suggestion list opened on the candidates `xray`
and `xenon`. -/
def demoList : State :=
  showDropdown
    { State.init [Surface.flat "#x".toList 2 2] (some 0) none [] with
      isTagMode := true, currentTagText := "x".toList, tagStartOffset := some 0 }
    ["xray".toList, "xenon".toList] 0

/-- A state for the examples: the script just loaded on a page with one empty
flat surface, focused. -/
def demoEmpty : State := State.init [Surface.flat [] 0 0] (some 0) none []

/-- A platform for the examples: lower-casing of the ASCII letters, no JSON. -/
def demoPlatform : Platform :=
  { toLowerCase := fun s => s.map Char.toLower, jsonParse := fun _ => none }

/-- The keys that finish a tag: `isEnterLike || isSpaceLike || isTabLike ||
isPunctuation`. -/
def isTerminator (e : KeyEvent) : Bool :=
  isEnterLike e || isSpaceLike e || isTabLike e || isPunctuation e

/-- Whether `applyTagSelection` finds what it needs in the editor: a flat
surface needs a recorded start offset. -/
def canApply (s : State) (editor : Nat) : Bool :=
  match s.surfaces[editor]? with
  | some (Surface.flat _ _ _) => s.tagStartOffset.isSome
  | some (Surface.structured _) => true
  | none => false

/-- A state for the examples: the script just loaded on a page with two flat
surfaces, an empty one that has the focus and one holding `hello` with the
caret at its end. -/
def demoTwo : State :=
  State.init [Surface.flat [] 0 0, Surface.flat "hello".toList 5 5] (some 0) none []

/-- A state for the examples: `demoTwo` while the buffer `x` is being composed
on the first surface. -/
def demoTwoComposing : State :=
  { demoTwo with isTagMode := true, currentTagText := "x".toList, tagStartOffset := some 0 }

/-- A write to the token store. -/
inductive StoreOp where
  | add (tag : Str)
  | remove (tag : Str)
  | importFrom (str : Str)

/-- The storage slot after one write. -/
def applyOp (P : Platform) (storage : List Str) : StoreOp → List Str
  | StoreOp.add tag => addTag storage tag
  | StoreOp.remove tag => removeTag storage tag
  | StoreOp.importFrom str => importTagsFromString P storage str

/-- The storage slot after a sequence of writes, first one first. -/
def runOps (P : Platform) (storage : List Str) (ops : List StoreOp) : List Str :=
  ops.foldl (applyOp P) storage

/-- The candidates `updateDropdownForCurrentTag` computes for the buffer `q`. -/
def candidates (P : Platform) (storage : List Str) (q : Str) : List Str :=
  ((loadTags storage).filter (fun t => includes (P.toLowerCase t) (P.toLowerCase q))).take 20

/-- The part of the state the suggestion list does not touch. -/
def SameBesidesList (s t : State) : Prop :=
  t.storage = s.storage ∧ t.isTagMode = s.isTagMode ∧ t.currentTagText = s.currentTagText ∧
  t.tagStartOffset = s.tagStartOffset ∧ t.surfaces = s.surfaces ∧
  t.activeElement = s.activeElement ∧ t.timers = s.timers ∧ t.managerVisible = s.managerVisible

/-- Key codes other than those of tab, enter, space and the up and down
arrows, which `handleKeydown` reads as these keys whatever `key` says. -/
def isPlainCode (code : Nat) : Bool :=
  code != 9 && code != 13 && code != 32 && code != 38 && code != 40

/-- A character that is one UTF-16 code unit and neither the trigger, nor the
space, nor one of the punctuation marks that finish a tag. -/
def isTagChar (c : Char) : Bool :=
  isCodeUnit c && c != '#' && c != ' ' &&
    !(c == '.' || c == ',' || c == ';' || c == ':' || c == '!' || c == '?')

/-- The machine is composing `pre` on the flat surface `A`, whose text was `v`
with the caret at `c0` when the trigger was typed: the trigger and `pre` stand
at `c0`, the caret behind them, no callback is queued, and the suggestion list
is visible exactly when `pre` has candidates. -/
def TypingOn (P : Platform) (s : State) (A : Nat) (v : Str) (c0 : Nat) (storage : List Str)
    (pre : Str) : Prop :=
  s.isTagMode = true ∧ s.currentTagText = pre ∧ s.tagStartOffset = some c0 ∧
  s.surfaces[A]? = some (Surface.flat (v.take c0 ++ '#' :: pre ++ v.drop c0)
    (c0 + 1 + pre.length) (c0 + 1 + pre.length)) ∧
  s.activeElement = some A ∧ s.storage = storage ∧ s.timers = [] ∧
  dropdownVisible s = !(candidates P storage pre).isEmpty

/-- The array `imported` that `importTagsFromString(str)` merges into the
store, after the mapping and the filter; empty when the function returns
before the merge or the mapping throws. -/
def importEntries (P : Platform) (str : Str) : List Str :=
  if str.isEmpty then []
  else
    let trimmed := trim str
    let parsed : List JVal :=
      if startsWith trimmed ['['] then
        match P.jsonParse trimmed with
        | some (JVal.arr xs) => xs
        | _ => []
      else []
    let imported : Option (List Str) :=
      if parsed.isEmpty then
        some (((splitLines trimmed).map trim).filter (fun l => !l.isEmpty))
      else stringsOf parsed
    match imported with
    | none => []
    | some imported => (imported.map (fun t => trim (stripHash t))).filter (fun t => !t.isEmpty)

/-- A platform for the examples: `JSON.parse` knows the texts `[]` and
`["#a","b"]` and throws on every other text. -/
def demoJson : Platform :=
  { toLowerCase := fun s => s.map Char.toLower,
    jsonParse := fun s =>
      if s = "[]".toList then some (JVal.arr [])
      else if s = "[\"#a\",\"b\"]".toList then
        some (JVal.arr [JVal.str "#a".toList, JVal.str "b".toList])
      else none }

/-- A state for the examples: `demoEmpty` with the store `Yak`, `xenon`, `xray`
while the buffer `X` is being composed. -/
def demoStore : State :=
  { demoEmpty with storage := ["Yak".toList, "xenon".toList, "xray".toList],
                   isTagMode := true, currentTagText := "X".toList }

/-- A state for the examples: one structured surface holding the text nodes
`ab` and `cd`, focused, the caret in an element between them with no text node
found next to it, the buffer `x`. -/
def demoFallback : State :=
  { State.init [Surface.structured ["ab".toList, "cd".toList]] (some 0)
      (some (0, Caret.element 1 Adjacent.none)) [] with
    isTagMode := true, currentTagText := "x".toList }

/-- The `mouseenter` listener of entry `idx` of the suggestion list; only the
current entries carry one. -/
def hoverEntry (s : State) (idx : Nat) : State :=
  match s.dd with
  | some d => if idx < d.children.length then setActiveDropdownIndex s (idx : Int) else s
  | none => s

/-- An operation on the suggestion list. -/
inductive ListOp where
  /-- `showDropdown(items, rect, onSelect)`, the callback capturing `editor`. -/
  | showItems (items : List Str) (editor : Nat)
  /-- `hideDropdown()`. -/
  | hide
  /-- `moveDropdownSelection(+1)` when `down`, else `moveDropdownSelection(-1)`. -/
  | move (down : Bool)
  /-- The pointer enters entry `idx`. -/
  | hover (idx : Nat)
  /-- `pickDropdownSelection()`. -/
  | accept

/-- The state after one operation on the suggestion list. -/
def applyListOp (s : State) : ListOp → State
  | ListOp.showItems items editor => showDropdown s items editor
  | ListOp.hide => hideDropdown s
  | ListOp.move down => moveDropdownSelection s (if down then 1 else -1)
  | ListOp.hover idx => hoverEntry s idx
  | ListOp.accept => pickDropdownSelection s

/-- The state after a sequence of operations on the suggestion list. -/
def runListOps (s : State) (ops : List ListOp) : State := ops.foldl applyListOp s

/-- Number of entries of the suggestion list. -/
def entryCount (s : State) : Nat :=
  match s.dd with
  | some d => d.children.length
  | none => 0

/-- The highlighted index is `-1` or an index into the current entries. -/
def HighlightValid (s : State) : Prop :=
  s.activeDropdownIndex = -1 ∨
    (0 ≤ s.activeDropdownIndex ∧ s.activeDropdownIndex < (entryCount s : Int))

/-- A state for the examples: one structured surface holding the single text
node `a`, focused, the caret at its end, the buffer `ab`. -/
def demoShort : State :=
  { State.init [Surface.structured ["a".toList]] (some 0) (some (0, Caret.text 0 1)) [] with
    isTagMode := true, currentTagText := "ab".toList }

/-- A state for the examples: one structured surface holding the text nodes
`#a` and `b`, focused, the caret in the element behind `b`, where the
normalisation finds `b`; the buffer `ab`. -/
def demoNormalised : State :=
  { State.init [Surface.structured ["#a".toList, "b".toList]] (some 0)
      (some (0, Caret.element 2 Adjacent.before)) [] with
    isTagMode := true, currentTagText := "ab".toList }

/-- A state for the examples: `demoFallback` on a page where a listener
prevents the `beforeinput` event fired at the surface. -/
def demoFallbackVetoed : State :=
  { demoFallback with cancels := [(Phase.beforeinput, 0)] }

/-! ## The span resolver -/

theorem charsBefore_succ (nodes : List Str) (i : Nat) (h : i < nodes.length) :
    charsBefore nodes (i + 1) = charsBefore nodes i + (nodes.getD i []).length := by
  unfold charsBefore
  rw [List.take_succ, List.flatten_append, List.length_append]
  simp [List.getD, List.getElem?_eq_getElem h]

theorem backwardWalk_below (nodes : List Str) (idx offset : Nat) (start : Nat × Nat) :
    ∀ (i r : Nat), i < idx → i < nodes.length → 0 < r → r ≤ charsBefore nodes (i + 1) →
      (backwardWalk nodes idx offset i r start).1 ≤ i ∧
      (backwardWalk nodes idx offset i r start).2 ≤
        (nodes.getD (backwardWalk nodes idx offset i r start).1 []).length ∧
      charsBefore nodes (backwardWalk nodes idx offset i r start).1 +
        (backwardWalk nodes idx offset i r start).2 + r = charsBefore nodes (i + 1) := by
  intro i
  induction i with
  | zero =>
    intro r hi hn hr hle
    have h0 : charsBefore nodes 0 = 0 := by simp [charsBefore]
    rw [charsBefore_succ nodes 0 hn, h0] at hle
    rw [charsBefore_succ nodes 0 hn, h0]
    unfold backwardWalk
    have hne : ¬ (0 = idx) := by omega
    simp only [Nat.pos_iff_ne_zero.mp hr, hne, if_false]
    have hge : (nodes.getD 0 []).length ≥ r := by omega
    simp only [hge, if_true]
    refine ⟨le_refl _, by omega, by rw [h0]; omega⟩
  | succ j ih =>
    intro r hi hn hr hle
    rw [charsBefore_succ nodes (j + 1) hn] at hle
    rw [charsBefore_succ nodes (j + 1) hn]
    unfold backwardWalk
    have hne : ¬ (j + 1 = idx) := by omega
    simp only [Nat.pos_iff_ne_zero.mp hr, hne, if_false]
    by_cases hge : (nodes.getD (j + 1) []).length ≥ r
    · simp only [hge, if_true]
      refine ⟨le_refl _, by omega, by omega⟩
    · simp only [hge, if_false]
      have := ih (r - (nodes.getD (j + 1) []).length) (by omega) (by omega) (by omega) (by omega)
      obtain ⟨h1, h2, h3⟩ := this
      refine ⟨by omega, h2, by omega⟩

theorem resolveStart_pos (nodes : List Str) (idx offset r : Nat)
    (hidx : idx < nodes.length) (hr : 0 < r) (hpre : r ≤ charsBefore nodes idx + offset) :
    (resolveStart nodes idx offset r).1 ≤ idx ∧
    ((resolveStart nodes idx offset r).1 = idx → (resolveStart nodes idx offset r).2 ≤ offset) ∧
    ((resolveStart nodes idx offset r).1 < idx → (resolveStart nodes idx offset r).2 ≤
      (nodes.getD (resolveStart nodes idx offset r).1 []).length) ∧
    charsBefore nodes (resolveStart nodes idx offset r).1 +
      (resolveStart nodes idx offset r).2 + r = charsBefore nodes idx + offset := by
  unfold resolveStart
  cases idx with
  | zero =>
    have h0 : charsBefore nodes 0 = 0 := by simp [charsBefore]
    rw [h0] at hpre
    unfold backwardWalk
    have hge : offset ≥ r := by omega
    simp only [Nat.pos_iff_ne_zero.mp hr, if_false, if_true, hge]
    refine ⟨le_refl _, fun _ => by omega, fun h => absurd h (by omega), by omega⟩
  | succ j =>
    unfold backwardWalk
    simp only [Nat.pos_iff_ne_zero.mp hr, if_false, if_true]
    by_cases hge : offset ≥ r
    · simp only [hge, if_true]
      refine ⟨le_refl _, fun _ => by omega, fun h => absurd h (by omega), by omega⟩
    · simp only [hge, if_false]
      obtain ⟨h1, h2, h3⟩ := backwardWalk_below nodes (j + 1) offset (j + 1, offset) j
        (r - offset) (by omega) (by omega) (by omega) (by omega)
      refine ⟨by omega, fun h => absurd h (by omega), fun _ => h2, by omega⟩

/-- C1: when at least `len(b) + 1` code units precede the caret `(idx, offset)`
in document order, the start boundary found by the backward walk is a valid
position lying exactly `len(b) + 1` code units before the caret, whatever the
fragment boundaries and empty fragments in between. -/
theorem resolveStart_exact (nodes : List Str) (idx offset : Nat) (b : Str)
    (hidx : idx < nodes.length) (hoff : offset ≤ (nodes.getD idx []).length)
    (hpre : b.length + 1 ≤ charsBefore nodes idx + offset) :
    (resolveStart nodes idx offset (b.length + 1)).1 ≤ idx ∧
    (resolveStart nodes idx offset (b.length + 1)).2 ≤
      (nodes.getD (resolveStart nodes idx offset (b.length + 1)).1 []).length ∧
    charsBefore nodes (resolveStart nodes idx offset (b.length + 1)).1 +
      (resolveStart nodes idx offset (b.length + 1)).2 + (b.length + 1) =
      charsBefore nodes idx + offset := by
  obtain ⟨h1, h2, h3, h4⟩ :=
    resolveStart_pos nodes idx offset (b.length + 1) hidx (Nat.succ_pos _) hpre
  refine ⟨h1, ?_, h4⟩
  rcases Nat.lt_or_eq_of_le h1 with hlt | heq
  · exact h3 hlt
  · have := h2 heq
    rw [heq]
    omega

/-- C1, witness: fragments `#a` and `b`, caret at the end of `b`, buffer `ab`. -/
theorem resolveStart_exact_witness :
    resolveStart ["#a".toList, "b".toList] 1 1 3 = (0, 0) ∧
    (resolveStart ["#a".toList, "b".toList] 1 1 ("ab".toList.length + 1)).1 ≤ 1 ∧
    (resolveStart ["#a".toList, "b".toList] 1 1 ("ab".toList.length + 1)).2 ≤
      (["#a".toList, "b".toList].getD
        (resolveStart ["#a".toList, "b".toList] 1 1 ("ab".toList.length + 1)).1 []).length ∧
    charsBefore ["#a".toList, "b".toList]
        (resolveStart ["#a".toList, "b".toList] 1 1 ("ab".toList.length + 1)).1 +
      (resolveStart ["#a".toList, "b".toList] 1 1 ("ab".toList.length + 1)).2 +
        ("ab".toList.length + 1) =
      charsBefore ["#a".toList, "b".toList] 1 + 1 :=
  ⟨by decide, resolveStart_exact ["#a".toList, "b".toList] 1 1 "ab".toList
    (by decide) (by decide) (by decide)⟩

/-! ## The store -/

theorem strLt_irrefl : ∀ a : Str, strLt a a = false
  | [] => rfl
  | c :: s => by simp [strLt, strLt_irrefl s]

theorem strLt_trans : ∀ a b c : Str, strLt a b = true → strLt b c = true → strLt a c = true
  | _, [], _, h, _ => by simp [strLt] at h
  | _, _ :: _, [], _, h => by simp [strLt] at h
  | [], _ :: _, _ :: _, _, _ => by simp [strLt]
  | x :: a, y :: b, z :: c, h1, h2 => by
    simp only [strLt, Bool.or_eq_true, decide_eq_true_eq, Bool.and_eq_true, beq_iff_eq] at h1 h2 ⊢
    rcases h1 with h1 | ⟨h1, h1'⟩
    · rcases h2 with h2 | ⟨h2, _⟩
      · left; omega
      · left; omega
    · rcases h2 with h2 | ⟨h2, h2'⟩
      · left; omega
      · right; exact ⟨by omega, strLt_trans a b c h1' h2'⟩

theorem strLt_total : ∀ a b : Str, a ≠ b → strLt a b = false → strLt b a = true
  | [], [], h, _ => absurd rfl h
  | [], _ :: _, _, h => by simp [strLt] at h
  | _ :: _, [], _, _ => by simp [strLt]
  | x :: a, y :: b, hne, h => by
    simp only [strLt, Bool.or_eq_false_iff, decide_eq_false_iff_not, Bool.and_eq_false_imp,
      beq_iff_eq] at h
    simp only [strLt, Bool.or_eq_true, decide_eq_true_eq, Bool.and_eq_true, beq_iff_eq]
    obtain ⟨h1, h2⟩ := h
    by_cases hxy : x.toNat = y.toNat
    · right
      have hc : x = y := Char.ext (UInt32.ext (by simpa [Char.toNat] using hxy))
      refine ⟨hxy.symm, strLt_total a b ?_ (h2 hxy)⟩
      intro hab
      exact hne (by rw [hc, hab])
    · left; omega

theorem mem_sortInsert (x y : Str) : ∀ l : List Str, y ∈ sortInsert x l ↔ y = x ∨ y ∈ l
  | [] => by simp [sortInsert]
  | z :: zs => by
    unfold sortInsert
    split
    · simp [mem_sortInsert x y zs]; tauto
    · simp

theorem mem_jsSort (y : Str) : ∀ l : List Str, y ∈ jsSort l ↔ y ∈ l
  | [] => by simp [jsSort]
  | x :: xs => by simp [jsSort, mem_sortInsert, mem_jsSort y xs]

theorem mem_setOfAux (y : Str) : ∀ (l seen : List Str), y ∈ setOfAux seen l ↔ y ∈ l ∧ y ∉ seen
  | [], seen => by simp [setOfAux]
  | x :: xs, seen => by
    unfold setOfAux
    split
    · rename_i hx
      rw [mem_setOfAux y xs seen]
      constructor
      · rintro ⟨h1, h2⟩; exact ⟨List.mem_cons_of_mem _ h1, h2⟩
      · rintro ⟨h1, h2⟩
        rcases List.mem_cons.mp h1 with h | h
        · subst h; exact absurd hx h2
        · exact ⟨h, h2⟩
    · rename_i hx
      rw [List.mem_cons, mem_setOfAux y xs (x :: seen)]
      simp only [List.mem_cons, not_or]
      constructor
      · rintro (h | ⟨h1, h2, h3⟩)
        · subst h; exact ⟨Or.inl rfl, hx⟩
        · exact ⟨Or.inr h1, h3⟩
      · rintro ⟨h1 | h1, h2⟩
        · exact Or.inl h1
        · by_cases hyx : y = x
          · exact Or.inl hyx
          · exact Or.inr ⟨h1, hyx, h2⟩

theorem mem_setOf (y : Str) (l : List Str) : y ∈ setOf l ↔ y ∈ l := by
  simp [setOf, mem_setOfAux]

theorem nodup_setOfAux : ∀ (l seen : List Str), (setOfAux seen l).Nodup
  | [], _ => by simp [setOfAux]
  | x :: xs, seen => by
    unfold setOfAux
    split
    · exact nodup_setOfAux xs seen
    · refine List.nodup_cons.mpr ⟨?_, nodup_setOfAux xs (x :: seen)⟩
      rw [mem_setOfAux]
      simp

theorem strictlySorted_sortInsert (x : Str) :
    ∀ l : List Str, x ∉ l → StrictlySorted l → StrictlySorted (sortInsert x l)
  | [], _, _ => by simp [sortInsert, StrictlySorted]
  | y :: ys, hx, hs => by
    unfold StrictlySorted at hs ⊢
    have hys := List.pairwise_cons.mp hs
    unfold sortInsert
    split
    · rename_i hyx
      refine List.pairwise_cons.mpr ⟨?_, strictlySorted_sortInsert x ys
        (fun h => hx (List.mem_cons_of_mem _ h)) hys.2⟩
      intro z hz
      rcases (mem_sortInsert x z ys).mp hz with h | h
      · rw [h]; exact hyx
      · exact hys.1 z h
    · rename_i hyx
      have hxy : strLt x y = true :=
        strLt_total y x (fun h => hx (by rw [h]; exact List.mem_cons_self _ _)) (by simpa using hyx)
      refine List.pairwise_cons.mpr ⟨?_, hs⟩
      intro z hz
      rcases List.mem_cons.mp hz with h | h
      · rw [h]; exact hxy
      · exact strLt_trans x y z hxy (hys.1 z h)

theorem strictlySorted_jsSort : ∀ l : List Str, l.Nodup → StrictlySorted (jsSort l)
  | [], _ => by simp [jsSort, StrictlySorted]
  | x :: xs, h => by
    have hn := List.nodup_cons.mp h
    exact strictlySorted_sortInsert x (jsSort xs) (fun hm => hn.1 ((mem_jsSort x xs).mp hm))
      (strictlySorted_jsSort xs hn.2)

theorem strictlySorted_saveTags (tags : List Str) : StrictlySorted (saveTags tags) :=
  strictlySorted_jsSort _ (nodup_setOfAux tags [])

theorem mem_saveTags (y : Str) (tags : List Str) : y ∈ saveTags tags ↔ y ∈ tags := by
  simp [saveTags, mem_jsSort, mem_setOf]

theorem mem_addTag (storage : List Str) (tag y : Str) :
    y ∈ addTag storage tag ↔ y ∈ storage ∨ (y = trim tag ∧ trim tag ≠ []) := by
  unfold addTag loadTags
  by_cases he : trim tag = []
  · simp [he]
  · simp only [List.isEmpty_iff, he, if_false]
    by_cases hc : storage.contains (trim tag) = true
    · simp only [hc, if_true]
      have hm : trim tag ∈ storage := by simpa using hc
      constructor
      · exact Or.inl
      · rintro (h | ⟨h, _⟩)
        · exact h
        · rw [h]; exact hm
    · simp only [hc]
      rw [if_neg (by simp), mem_saveTags]
      simp [he]

/-! ## Replacement on a structured surface -/

theorem prevented_eq_vetoes (s : State) (root : Nat) (data inputType : Str) :
    (notifyContentEditableInput s root data inputType [Phase.beforeinput]).2.2 = vetoes s root := by
  unfold notifyContentEditableInput dispatches vetoes
  cases hact : s.activeElement with
  | none => simp
  | some el =>
    by_cases h : el = root
    · subst h; simp
    · simp [h]

theorem notify_fst (s : State) (root : Nat) (data inputType : Str) (phases : List Phase) :
    (notifyContentEditableInput s root data inputType phases).1 =
      { s with events := s.events ++ (dispatches s root data inputType phases).map Prod.fst } := rfl

theorem applyTagSelection_vetoed_eq (s : State) (editor host : Nat) (nodes : List Str)
    (caret : Caret) (c o : Nat) (tag : Str)
    (hsurf : s.surfaces[editor]? = some (Surface.structured nodes))
    (hsel : s.selection = some (host, caret))
    (hcaret : caretContainer (nodesOf s.surfaces host) caret = some (c, o))
    (hveto : vetoes s editor = true) :
    applyTagSelection s editor tag =
      resetTagState { s with
        selection := some (host, Caret.text c o),
        events := s.events ++ (dispatches s editor ('#' :: tag ++ [' '])
          "insertReplacementText".toList [Phase.beforeinput]).map Prod.fst,
        storage := addTag s.storage tag } := by
  unfold applyTagSelection
  simp only [hsurf, hsel, hcaret, prevented_eq_vetoes]
  have hv : vetoes { s with selection := some (host, Caret.text c o) } editor = true := hveto
  simp only [hv, if_true, notify_fst]
  rfl

@[simp] theorem resetTagState_surfaces (s : State) : (resetTagState s).surfaces = s.surfaces := rfl

@[simp] theorem resetTagState_storage (s : State) : (resetTagState s).storage = s.storage := rfl

@[simp] theorem resetTagState_isTagMode (s : State) : (resetTagState s).isTagMode = false := rfl

@[simp] theorem resetTagState_currentTagText (s : State) :
    (resetTagState s).currentTagText = [] := rfl

@[simp] theorem resetTagState_tagStartOffset (s : State) :
    (resetTagState s).tagStartOffset = none := rfl

@[simp] theorem resetTagState_events (s : State) : (resetTagState s).events = s.events := rfl

@[simp] theorem resetTagState_selection (s : State) :
    (resetTagState s).selection = s.selection := rfl

@[simp] theorem resetTagState_activeElement (s : State) :
    (resetTagState s).activeElement = s.activeElement := rfl

@[simp] theorem resetTagState_timers (s : State) : (resetTagState s).timers = s.timers := rfl

@[simp] theorem dropdownVisible_resetTagState (s : State) :
    dropdownVisible (resetTagState s) = false := by
  unfold dropdownVisible resetTagState hideDropdown
  cases s.dd <;> rfl

/-- C3, as amended: when the caret lies in a text node, or in an element next
to which the normalisation finds a text node, and a listener vetoes the
pre-edit notification, no text node of any surface is changed, the tag
(trimmed, as `addTag` stores it) is in the store, and the machine is Idle with
an empty buffer. -/
theorem applyTagSelection_vetoed (s : State) (editor host : Nat) (nodes : List Str)
    (caret : Caret) (c o : Nat) (tag : Str)
    (hsurf : s.surfaces[editor]? = some (Surface.structured nodes))
    (hsel : s.selection = some (host, caret))
    (hcaret : caretContainer (nodesOf s.surfaces host) caret = some (c, o))
    (hveto : vetoes s editor = true)
    (htag : trim tag ≠ []) :
    (applyTagSelection s editor tag).surfaces = s.surfaces ∧
    trim tag ∈ loadTags (applyTagSelection s editor tag).storage ∧
    (applyTagSelection s editor tag).isTagMode = false ∧
    (applyTagSelection s editor tag).currentTagText = [] := by
  rw [applyTagSelection_vetoed_eq s editor host nodes caret c o tag hsurf hsel hcaret hveto]
  refine ⟨rfl, ?_, rfl, rfl⟩
  simp only [resetTagState_storage, loadTags]
  exact (mem_addTag s.storage tag (trim tag)).mpr (Or.inr ⟨rfl, htag⟩)

/-- C3, witness: the host vetoes the replacement of `#ab`. -/
theorem applyTagSelection_vetoed_witness :
    (applyTagSelection (demoStructured [(Phase.beforeinput, 0)]) 0 "ab".toList).surfaces =
      (demoStructured [(Phase.beforeinput, 0)]).surfaces ∧
    trim "ab".toList ∈
      loadTags (applyTagSelection (demoStructured [(Phase.beforeinput, 0)]) 0 "ab".toList).storage ∧
    (applyTagSelection (demoStructured [(Phase.beforeinput, 0)]) 0 "ab".toList).isTagMode = false ∧
    (applyTagSelection (demoStructured [(Phase.beforeinput, 0)]) 0 "ab".toList).currentTagText = [] :=
  applyTagSelection_vetoed (demoStructured [(Phase.beforeinput, 0)]) 0 0
    ["#a".toList, "b".toList] (Caret.text 1 1) 1 1 "ab".toList rfl rfl rfl (by decide) (by decide)

/-- C3, counterexample: the caret in an element between the text nodes `ab` and
`cd`, no text node found next to it, and a listener that vetoes `beforeinput`:
the text node `#x ` is inserted all the same, the notification being fired
after the insertion and its result dropped. -/
theorem fallback_ignores_veto :
    vetoes demoFallbackVetoed 0 = true ∧
    demoFallbackVetoed.surfaces.map textOf = ["abcd".toList] ∧
    (applyTagSelection demoFallbackVetoed 0 "x".toList).surfaces.map textOf =
      ["ab#x cd".toList] := by
  decide

/-! ## Replacement on a flat surface -/

theorem applyTagSelection_flat_eq (s : State) (editor : Nat) (v : Str) (e e2 st : Nat) (tag : Str)
    (hsurf : s.surfaces[editor]? = some (Surface.flat v e e2))
    (hst : s.tagStartOffset = some st) :
    applyTagSelection s editor tag =
      resetTagState { s with
        surfaces := s.surfaces.set editor (Surface.flat
          (v.take st ++ ('#' :: tag ++ [' ']) ++ v.drop e)
          ((v.take st).length + ('#' :: tag ++ [' ']).length)
          ((v.take st).length + ('#' :: tag ++ [' ']).length)),
        storage := addTag s.storage tag } := by
  unfold applyTagSelection
  simp only [hsurf, hst]

theorem getElem?_set_of_getElem? {α : Type} (l : List α) (i : Nat) (a b : α)
    (h : l[i]? = some a) : (l.set i b)[i]? = some b := by
  have hlt : i < l.length := by
    by_contra hcon
    rw [List.getElem?_eq_none (by omega)] at h
    cases h
  rw [List.getElem?_set_self hlt]

/-- C7: on a flat surface with text `v`, caret `e` and recorded start `st`,
`st ≤ e ≤ len(v)`, the text becomes `v[0..st] ++ "#" ++ tag ++ " " ++ v[e..]`,
both ends of the selection become `st + len(tag) + 2`, and the text before
`st` and from `e` on is kept. -/
theorem applyTagSelection_flat (s : State) (editor : Nat) (v : Str) (e e2 st : Nat) (tag : Str)
    (hsurf : s.surfaces[editor]? = some (Surface.flat v e e2))
    (hst : s.tagStartOffset = some st) (hle : st ≤ e) (hlen : e ≤ v.length) :
    (applyTagSelection s editor tag).surfaces[editor]? =
      some (Surface.flat (v.take st ++ ('#' :: tag ++ [' ']) ++ v.drop e)
        (st + tag.length + 2) (st + tag.length + 2)) ∧
    (v.take st ++ ('#' :: tag ++ [' ']) ++ v.drop e).take st = v.take st ∧
    (v.take st ++ ('#' :: tag ++ [' ']) ++ v.drop e).drop (st + tag.length + 2) = v.drop e := by
  have htake : (v.take st).length = st := by simp; omega
  refine ⟨?_, ?_, ?_⟩
  · rw [applyTagSelection_flat_eq s editor v e e2 st tag hsurf hst, resetTagState_surfaces]
    rw [getElem?_set_of_getElem? _ _ _ _ hsurf, htake]
    simp
    omega
  · rw [List.append_assoc, List.take_left' htake]
  · rw [List.append_assoc, ← List.append_assoc, List.drop_left']
    simp [htake]; omega

/-- C7, witness: `say #wo now` with the tag `world`. -/
theorem applyTagSelection_flat_witness :
    (applyTagSelection demoFlat 0 "world".toList).surfaces[0]? =
      some (Surface.flat "say #world  now".toList 11 11) :=
  (applyTagSelection_flat demoFlat 0 "say #wo now".toList 7 7 4 "world".toList rfl rfl
    (by decide) (by decide)).1

/-! ## Replacement across text nodes -/

theorem nodes_split (nodes : List Str) (i : Nat) (h : i < nodes.length) :
    nodes = nodes.take i ++ nodes.getD i [] :: nodes.drop (i + 1) := by
  have hg : nodes.getD i [] = nodes[i] := by
    simp [List.getD, List.getElem?_eq_getElem h]
  rw [hg, ← List.drop_eq_getElem_cons h, List.take_append_drop]

theorem flatten_split (nodes : List Str) (i : Nat) (h : i < nodes.length) :
    nodes.flatten = (nodes.take i).flatten ++ (nodes.getD i [] ++ (nodes.drop (i + 1)).flatten) := by
  conv_lhs => rw [nodes_split nodes i h]
  rw [List.flatten_append, List.flatten_cons]

theorem flatten_take_pos (nodes : List Str) (i o : Nat) (h : i < nodes.length)
    (ho : o ≤ (nodes.getD i []).length) :
    nodes.flatten.take (charsBefore nodes i + o) =
      (nodes.take i).flatten ++ (nodes.getD i []).take o := by
  rw [flatten_split nodes i h]
  unfold charsBefore
  rw [List.take_append, List.take_append_of_le_length ho]

theorem flatten_drop_pos (nodes : List Str) (i o : Nat) (h : i < nodes.length)
    (ho : o ≤ (nodes.getD i []).length) :
    nodes.flatten.drop (charsBefore nodes i + o) =
      (nodes.getD i []).drop o ++ (nodes.drop (i + 1)).flatten := by
  rw [flatten_split nodes i h]
  unfold charsBefore
  rw [List.drop_append, List.drop_append_of_le_length ho]

theorem flatten_replaceNodes (nodes : List Str) (si so ei eo : Nat) (ins : Str)
    (hsi : si < nodes.length) (hso : so ≤ (nodes.getD si []).length)
    (hei : ei < nodes.length) (heo : eo ≤ (nodes.getD ei []).length) :
    (replaceNodes nodes si so ei eo ins).flatten =
      nodes.flatten.take (charsBefore nodes si + so) ++ ins ++
        nodes.flatten.drop (charsBefore nodes ei + eo) := by
  rw [flatten_take_pos nodes si so hsi hso, flatten_drop_pos nodes ei eo hei heo]
  unfold replaceNodes
  simp [List.flatten_append]

theorem charsBefore_replaceNodes (nodes : List Str) (si so ei eo : Nat) (ins : Str)
    (hsi : si < nodes.length) (hso : so ≤ (nodes.getD si []).length) :
    charsBefore (replaceNodes nodes si so ei eo ins) (si + 2) =
      charsBefore nodes si + so + ins.length := by
  unfold charsBefore replaceNodes
  have hl : (nodes.take si).length = si := by simp; omega
  rw [List.append_assoc, List.take_append_eq_append_take, hl]
  have h1 : List.take (si + 2) (List.take si nodes) = List.take si nodes := by
    rw [List.take_take]; congr 1; omega
  have h2 : si + 2 - si = 2 := by omega
  rw [h1, h2]
  have h3 : List.take 2 ([List.take so (nodes.getD si []), ins, List.drop eo (nodes.getD ei [])] ++
      List.drop (ei + 1) nodes) = [List.take so (nodes.getD si []), ins] := rfl
  rw [h3, List.flatten_append, List.length_append]
  simp only [List.flatten_cons, List.flatten_nil, List.length_append, List.length_take,
    List.append_nil]
  omega

theorem nodesOf_eq (surfaces : List Surface) (i : Nat) (nodes : List Str)
    (h : surfaces[i]? = some (Surface.structured nodes)) : nodesOf surfaces i = nodes := by
  simp [nodesOf, h]

theorem modifyNodes_eq (surfaces : List Surface) (i : Nat) (nodes : List Str)
    (f : List Str → List Str)
    (h : surfaces[i]? = some (Surface.structured nodes)) :
    modifyNodes surfaces i f = surfaces.set i (Surface.structured (f nodes)) := by
  simp [modifyNodes, h]

theorem applyTagSelection_replace_eq (s : State) (editor : Nat) (nodes : List Str)
    (caret : Caret) (c o : Nat) (tag : Str)
    (hsurf : s.surfaces[editor]? = some (Surface.structured nodes))
    (hsel : s.selection = some (editor, caret))
    (hcaret : caretContainer nodes caret = some (c, o))
    (hc : c < nodes.length)
    (hveto : vetoes s editor = false) :
    applyTagSelection s editor tag =
      resetTagState { s with
        surfaces := s.surfaces.set editor (Surface.structured
          (replaceNodes nodes (resolveStart nodes c o (s.currentTagText.length + 1)).1
            (resolveStart nodes c o (s.currentTagText.length + 1)).2 c o ('#' :: tag ++ [' ']))),
        selection := some (editor,
          Caret.element ((resolveStart nodes c o (s.currentTagText.length + 1)).1 + 2)
            Adjacent.before),
        events := (s.events ++ (dispatches s editor ('#' :: tag ++ [' '])
            "insertReplacementText".toList [Phase.beforeinput]).map Prod.fst) ++
          (dispatches { s with surfaces := s.surfaces.set editor (Surface.structured
              (replaceNodes nodes (resolveStart nodes c o (s.currentTagText.length + 1)).1
                (resolveStart nodes c o (s.currentTagText.length + 1)).2 c o
                ('#' :: tag ++ [' ']))) } editor ('#' :: tag ++ [' '])
            "insertReplacementText".toList [Phase.input]).map Prod.fst,
        storage := addTag s.storage tag } := by
  unfold applyTagSelection
  simp only [hsurf, hsel, nodesOf_eq _ _ _ hsurf, hcaret, prevented_eq_vetoes]
  have hv : vetoes { s with selection := some (editor, Caret.text c o) } editor = false := hveto
  simp only [hv, notify_fst, modifyNodes_eq _ _ _ _ hsurf, beq_self_eq_true, hc, decide_True,
    Bool.and_self, if_true]
  rfl

theorem dispatches_head (s : State) (root : Nat) (data inputType : Str) (ph : Phase) :
    ∃ rest, dispatches s root data inputType [ph] =
      ({ target := root, phase := ph, inputType := inputType, data := data,
         seen := s.surfaces[root]? }, !(s.cancels.contains (ph, root))) :: rest := by
  unfold dispatches
  cases s.activeElement with
  | none => exact ⟨[], by simp⟩
  | some el =>
    by_cases h : el = root
    · exact ⟨[], by simp [h]⟩
    · exact ⟨_, by simp [h]; rfl⟩

theorem caretPos_of_caretContainer (nodes : List Str) (caret : Caret) (idx offset : Nat)
    (hcaret : caretContainer nodes caret = some (idx, offset)) (hidx : idx < nodes.length)
    (hwf : caret ≠ Caret.element 0 Adjacent.before) :
    caretPos nodes caret = charsBefore nodes idx + offset := by
  cases caret with
  | text i o =>
    simp only [caretContainer, Option.some.injEq, Prod.mk.injEq] at hcaret
    rw [← hcaret.1, ← hcaret.2]
    rfl
  | element gap adj =>
    cases adj with
    | none => simp [caretContainer] at hcaret
    | before =>
      simp only [caretContainer, Option.some.injEq, Prod.mk.injEq] at hcaret
      have hgap : gap ≠ 0 := by
        intro h
        exact hwf (by rw [h])
      have hg : gap = idx + 1 := by omega
      rw [← hcaret.2, hcaret.1, hg]
      exact charsBefore_succ nodes idx hidx
    | after =>
      simp only [caretContainer, Option.some.injEq, Prod.mk.injEq] at hcaret
      rw [← hcaret.1, ← hcaret.2]
      rfl

/-- C2, as amended: on a structured surface with text `T` whose caret lies in
a text node, or in an element next to which the normalisation finds a text
node, at position `p`, `p ≥ len(b) + 1`: when no listener vetoes the pre-edit
notification the text becomes `T[0 .. p-len(b)-1] ++ "#" ++ tag ++ " " ++
T[p ..]`, the caret stands right behind the inserted text, and the `input`
notification dispatched at the surface finds the text already replaced. -/
theorem applyTagSelection_replaces (s : State) (editor : Nat) (nodes : List Str)
    (caret : Caret) (idx offset : Nat) (tag : Str)
    (hsurf : s.surfaces[editor]? = some (Surface.structured nodes))
    (hsel : s.selection = some (editor, caret))
    (hcaret : caretContainer nodes caret = some (idx, offset))
    (hidx : idx < nodes.length) (hoff : offset ≤ (nodes.getD idx []).length)
    (hpre : s.currentTagText.length + 1 ≤ charsBefore nodes idx + offset)
    (hveto : vetoes s editor = false) :
    (caret ≠ Caret.element 0 Adjacent.before →
      caretPos nodes caret = charsBefore nodes idx + offset) ∧
    ∃ (nodes' : List Str) (caret' : Caret),
      (applyTagSelection s editor tag).surfaces[editor]? = some (Surface.structured nodes') ∧
      nodes'.flatten =
        nodes.flatten.take (charsBefore nodes idx + offset - (s.currentTagText.length + 1)) ++
          ('#' :: tag ++ [' ']) ++ nodes.flatten.drop (charsBefore nodes idx + offset) ∧
      (applyTagSelection s editor tag).selection = some (editor, caret') ∧
      caretPos nodes' caret' =
        charsBefore nodes idx + offset - (s.currentTagText.length + 1) + (tag.length + 2) ∧
      ({ target := editor, phase := Phase.input, inputType := "insertReplacementText".toList,
         data := '#' :: tag ++ [' '], seen := some (Surface.structured nodes') } : Dispatched) ∈
        (applyTagSelection s editor tag).events.drop s.events.length := by
  refine ⟨caretPos_of_caretContainer nodes caret idx offset hcaret hidx, ?_⟩
  obtain ⟨h1, h2, h3, h4⟩ := resolveStart_pos nodes idx offset (s.currentTagText.length + 1)
    hidx (Nat.succ_pos _) hpre
  rw [applyTagSelection_replace_eq s editor nodes caret idx offset tag hsurf hsel hcaret hidx
    hveto]
  generalize resolveStart nodes idx offset (s.currentTagText.length + 1) = st at h1 h2 h3 h4 ⊢
  have hso : st.2 ≤ (nodes.getD st.1 []).length := by
    rcases Nat.lt_or_eq_of_le h1 with hlt | heq
    · exact h3 hlt
    · have := h2 heq
      rw [heq]
      omega
  have hsi : st.1 < nodes.length := by omega
  have hpos : charsBefore nodes idx + offset - (s.currentTagText.length + 1) =
      charsBefore nodes st.1 + st.2 := by omega
  refine ⟨replaceNodes nodes st.1 st.2 idx offset ('#' :: tag ++ [' ']),
    Caret.element (st.1 + 2) Adjacent.before, ?_, ?_, rfl, ?_, ?_⟩
  · rw [resetTagState_surfaces]
    exact getElem?_set_of_getElem? _ _ _ _ hsurf
  · rw [hpos]
    exact flatten_replaceNodes nodes _ _ idx offset _ hsi hso hidx hoff
  · rw [hpos]
    show charsBefore (replaceNodes nodes st.1 st.2 idx offset ('#' :: tag ++ [' '])) (st.1 + 2) = _
    rw [charsBefore_replaceNodes nodes _ _ idx offset _ hsi hso]
    simp
  · rw [resetTagState_events]
    simp only [List.append_assoc, List.drop_left]
    apply List.mem_append_right
    generalize hs1 : ({ s with
      surfaces := s.surfaces.set editor (Surface.structured
        (replaceNodes nodes st.1 st.2 idx offset ('#' :: tag ++ [' ']))) } : State) = s1
    have hs1s : s1.surfaces = s.surfaces.set editor (Surface.structured
        (replaceNodes nodes st.1 st.2 idx offset ('#' :: tag ++ [' ']))) := by rw [← hs1]
    obtain ⟨rest, hrest⟩ := dispatches_head s1 editor ('#' :: tag ++ [' '])
      "insertReplacementText".toList Phase.input
    rw [hrest, List.map_cons, hs1s]
    have hg := getElem?_set_of_getElem? s.surfaces editor _
      (Surface.structured (replaceNodes nodes st.1 st.2 idx offset ('#' :: tag ++ [' ']))) hsurf
    simp only [hg]
    exact List.mem_cons_self _ _

/-- C2, witness: the text nodes `#a` and `b` with the buffer `ab` and the tag
`abc`, the caret in the element behind `b`. -/
theorem applyTagSelection_replaces_witness :
    caretPos ["#a".toList, "b".toList] (Caret.element 2 Adjacent.before) = 3 ∧
    ∃ (nodes' : List Str) (caret' : Caret),
      (applyTagSelection demoNormalised 0 "abc".toList).surfaces[0]? =
        some (Surface.structured nodes') ∧
      nodes'.flatten = "#abc ".toList ∧
      (applyTagSelection demoNormalised 0 "abc".toList).selection = some (0, caret') ∧
      caretPos nodes' caret' = 5 ∧
      ({ target := 0, phase := Phase.input, inputType := "insertReplacementText".toList,
         data := "#abc ".toList, seen := some (Surface.structured nodes') } : Dispatched) ∈
        (applyTagSelection demoNormalised 0 "abc".toList).events.drop 0 :=
  have h := applyTagSelection_replaces demoNormalised 0 ["#a".toList, "b".toList]
    (Caret.element 2 Adjacent.before) 1 1 "abc".toList
    rfl rfl rfl (by decide) (by decide) (by decide) (by decide)
  ⟨h.1 (by decide), h.2⟩

/-- C2, counterexample: the caret at position 2 in an element between the text
nodes `ab` and `cd`, no text node found next to it, the buffer `x`, no veto:
the text becomes `ab#x cd`, nothing is deleted, where `T[0 .. 0] ++ "#x " ++
T[2 ..]` is `#x cd`. -/
theorem element_caret_keeps_span :
    caretPos ["ab".toList, "cd".toList] (Caret.element 1 Adjacent.none) = 2 ∧
    demoFallback.currentTagText.length + 1 ≤ 2 ∧
    vetoes demoFallback 0 = false ∧
    (applyTagSelection demoFallback 0 "x".toList).surfaces.map textOf = ["ab#x cd".toList] ∧
    (applyTagSelection demoFallback 0 "x".toList).surfaces.map textOf ≠ ["#x cd".toList] := by
  decide

/-! ## The suggestion list -/

theorem showDropdown_nonempty (s : State) (items : List Str) (ed : Nat) (h : items ≠ []) :
    (showDropdown s items ed).dd = some { shown := true, children := items } ∧
    (showDropdown s items ed).activeDropdownIndex = 0 ∧
    (showDropdown s items ed).dropdownSelectCallback = some ed := by
  cases items with
  | nil => exact absurd rfl h
  | cons x xs => simp [showDropdown, setActiveDropdownIndex]

theorem moveDropdownSelection_step (s : State) (items : List Str) (delta : Int) (i : Nat)
    (hdd : s.dd = some { shown := true, children := items }) (h : items ≠ [])
    (hi : s.activeDropdownIndex = (i : Int)) (hd : 0 ≤ (i : Int) + delta + items.length) :
    (moveDropdownSelection s delta).dd = s.dd ∧
    (moveDropdownSelection s delta).dropdownSelectCallback = s.dropdownSelectCallback ∧
    (moveDropdownSelection s delta).activeDropdownIndex =
      ((i : Int) + delta + items.length) % (items.length : Int) := by
  have hemp : items.isEmpty = false := by
    cases items with
    | nil => exact absurd rfl h
    | cons x xs => rfl
  have hnn : ¬ ((i : Int) < 0) := by omega
  unfold moveDropdownSelection setActiveDropdownIndex
  simp only [hdd, hemp, hi, hnn, if_false, Bool.false_eq_true]
  refine ⟨trivial, trivial, ?_⟩
  exact Int.tmod_eq_emod hd (by omega)

theorem moveMany_down (s : State) (items : List Str) (ed : Nat) (h : items ≠ []) :
    ∀ k : Nat,
      (moveMany 1 k (showDropdown s items ed)).dd = some { shown := true, children := items } ∧
      (moveMany 1 k (showDropdown s items ed)).dropdownSelectCallback = some ed ∧
      (moveMany 1 k (showDropdown s items ed)).activeDropdownIndex =
        ((k % items.length : Nat) : Int)
  | 0 => by
    obtain ⟨h1, h2, h3⟩ := showDropdown_nonempty s items ed h
    exact ⟨h1, h3, by simp [moveMany, h2]⟩
  | k + 1 => by
    obtain ⟨h1, h2, h3⟩ := moveMany_down s items ed h k
    obtain ⟨g1, g2, g3⟩ := moveDropdownSelection_step (moveMany 1 k (showDropdown s items ed))
      items 1 (k % items.length) h1 h h3 (by omega)
    refine ⟨by rw [moveMany, g1, h1], by rw [moveMany, g2, h2], ?_⟩
    rw [moveMany, g3]
    have hpos : 0 < items.length := List.length_pos.mpr h
    have : ((k % items.length : Nat) : Int) + 1 + (items.length : Int) =
        ((k % items.length + 1 + items.length : Nat) : Int) := by push_cast; ring
    rw [this, ← Int.natCast_mod]
    congr 1
    rw [Nat.add_mod_right, Nat.add_mod, Nat.mod_mod, ← Nat.add_mod]

theorem pickedTag_of (s : State) (items : List Str) (ed i : Nat)
    (hdd : s.dd = some { shown := true, children := items })
    (hcb : s.dropdownSelectCallback = some ed)
    (hi : s.activeDropdownIndex = (i : Int)) (hlt : i < items.length) :
    pickedTag s = if (items.getD i []).isEmpty then none else some (ed, items.getD i []) := by
  have hemp : items.isEmpty = false := by
    cases items with
    | nil => simp at hlt
    | cons x xs => rfl
  have hnn : ¬ ((i : Int) < 0) := by omega
  unfold pickedTag
  have hg : items.getD i [] = items[i] := by
    simp [List.getD, List.getElem?_eq_getElem hlt]
  simp only [hdd, hemp, hi, hcb, hnn, Bool.false_or, decide_False, Bool.false_eq_true, if_false,
    Int.toNat_ofNat, List.getElem?_eq_getElem hlt, hg]


/-! ## Escape -/

theorem isPunctuation_escape (e : KeyEvent) (h : e.key = "Escape".toList) :
    isPunctuation e = false := by
  unfold isPunctuation
  rw [h]
  decide

/-- C6, as amended: in every Composing state an escape keystroke adds no token
to the store and changes no surface text; when the suggestion list is visible
and the tag manager is not, it leaves the machine in Idle with the buffer
discarded. -/
theorem escape_cancels (s : State) (e : KeyEvent)
    (hkey : e.key = "Escape".toList) (hcode : e.keyCode = 27 ∨ e.keyCode = 0)
    (hcomp : s.isTagMode = true) :
    (handleKeydown s e).1.storage = s.storage ∧
    (handleKeydown s e).1.surfaces = s.surfaces ∧
    (dropdownVisible s = true → s.managerVisible = false → e.tmTagHandler = false →
      (handleKeydown s e).1.isTagMode = false ∧ (handleKeydown s e).1.currentTagText = []) := by
  have hdown : isDownKey e = false := by
    unfold isDownKey; rw [hkey]; rcases hcode with h | h <;> rw [h] <;> decide
  have hup : isUpKey e = false := by
    unfold isUpKey; rw [hkey]; rcases hcode with h | h <;> rw [h] <;> decide
  have henter : isEnterLike e = false := by
    unfold isEnterLike; rw [hkey]; rcases hcode with h | h <;> rw [h] <;> decide
  have hspace : isSpaceLike e = false := by
    unfold isSpaceLike; rw [hkey]; rcases hcode with h | h <;> rw [h] <;> decide
  have htab : isTabLike e = false := by
    unfold isTabLike; rw [hkey]; rcases hcode with h | h <;> rw [h] <;> decide
  have hpunct := isPunctuation_escape e hkey
  have hhash : (e.key == ['#']) = false := by rw [hkey]; decide
  have hback : (e.key == "Backspace".toList) = false := by rw [hkey]; decide
  have hlen : (utf16Length e.key == 1) = false := by rw [hkey]; decide
  have hesc : (e.key == "Escape".toList) = true := by rw [hkey]; decide
  unfold handleKeydown
  simp only [hdown, hup, henter, hspace, htab, hpunct, hhash, hback, hlen, hesc, hcomp,
    Bool.or_self, Bool.and_false, Bool.and_true, Bool.false_and, Bool.not_true,
    Bool.false_eq_true, if_false]
  cases hT : e.tmTagHandler
  · cases hM : s.managerVisible
    · cases hV : dropdownVisible s
      · cases hA : getActiveEditor s <;> simp
      · simp
    · simp [hideTagManager]
  · simp

/-- C6, witness: the list shows `xray` and `xenon` when escape is pressed. -/
theorem escape_cancels_witness :
    (handleKeydown demoList (namedKey "Escape".toList 27)).1.storage = demoList.storage ∧
    (handleKeydown demoList (namedKey "Escape".toList 27)).1.surfaces = demoList.surfaces ∧
    (handleKeydown demoList (namedKey "Escape".toList 27)).1.isTagMode = false ∧
    (handleKeydown demoList (namedKey "Escape".toList 27)).1.currentTagText = [] :=
  have h := escape_cancels demoList (namedKey "Escape".toList 27) rfl (Or.inl rfl) rfl
  ⟨h.1, h.2.1, h.2.2 rfl rfl rfl⟩

/-- C6, counterexample: with an empty store no list is shown; after `#wo` an
escape keystroke leaves the machine Composing with the buffer `wo`, and the
space that follows records `wo` and rewrites the text. -/
theorem escape_without_list :
    (keystrokes demoPlatform demoEmpty
      [charKey '#' 51, charKey 'w' 87, charKey 'o' 79, namedKey "Escape".toList 27]).isTagMode
      = true ∧
    (keystrokes demoPlatform demoEmpty
      [charKey '#' 51, charKey 'w' 87, charKey 'o' 79, namedKey "Escape".toList 27]).currentTagText
      = "wo".toList ∧
    (keystrokes demoPlatform demoEmpty
      [charKey '#' 51, charKey 'w' 87, charKey 'o' 79, namedKey "Escape".toList 27,
       charKey ' ' 32]).storage = ["wo".toList] := by
  decide

/-! ## Trimming -/

theorem trim_eq_rdropWhile (s : Str) :
    trim s = List.rdropWhile isWhiteSpace (s.dropWhile isWhiteSpace) := rfl

theorem rdropWhile_cons_of_neg (p : Char → Bool) (a : Char) (t : Str) (h : p a = false) :
    List.rdropWhile p (a :: t) = a :: List.rdropWhile p t := by
  unfold List.rdropWhile
  rw [List.reverse_cons, List.dropWhile_append]
  have h1 : List.dropWhile p [a] = [a] := by simp [List.dropWhile, h]
  split
  · rename_i he
    have : List.dropWhile p t.reverse = [] := by simpa using he
    rw [h1, this]
    rfl
  · simp

theorem trim_idem (s : Str) : trim (trim s) = trim s := by
  rw [trim_eq_rdropWhile s]
  cases ht : s.dropWhile isWhiteSpace with
  | nil => rfl
  | cons a t =>
    have ha : isWhiteSpace a = false := by
      have := List.head_dropWhile_not isWhiteSpace s (by rw [ht]; simp)
      simpa [ht] using this
    rw [rdropWhile_cons_of_neg _ a t ha, trim_eq_rdropWhile]
    rw [List.dropWhile_cons_of_neg (by simp [ha])]
    rw [rdropWhile_cons_of_neg _ a _ ha, List.rdropWhile_idempotent]

theorem trim_of_no_whiteSpace (s : Str) (h : ∀ c ∈ s, isWhiteSpace c = false) : trim s = s := by
  rw [trim_eq_rdropWhile]
  have h1 : s.dropWhile isWhiteSpace = s := by
    cases s with
    | nil => rfl
    | cons a t => exact List.dropWhile_cons_of_neg (by simp [h a (List.mem_cons_self _ _)])
  rw [h1]
  unfold List.rdropWhile
  have h2 : s.reverse.dropWhile isWhiteSpace = s.reverse := by
    cases hr : s.reverse with
    | nil => rfl
    | cons a t =>
      have : a ∈ s := by
        have : a ∈ s.reverse := by rw [hr]; exact List.mem_cons_self _ _
        simpa using this
      exact List.dropWhile_cons_of_neg (by simp [h a this])
  rw [h2, List.reverse_reverse]

/-! ## Terminators -/

@[simp] theorem notify_storage (s : State) (root : Nat) (data inputType : Str)
    (phases : List Phase) :
    (notifyContentEditableInput s root data inputType phases).1.storage = s.storage := rfl

theorem applyTagSelection_records (s : State) (editor : Nat) (tag : Str)
    (h : canApply s editor = true) :
    (applyTagSelection s editor tag).storage = addTag s.storage tag ∧
    (applyTagSelection s editor tag).isTagMode = false ∧
    (applyTagSelection s editor tag).currentTagText = [] ∧
    (applyTagSelection s editor tag).tagStartOffset = none := by
  unfold canApply at h
  unfold applyTagSelection
  cases hs : s.surfaces[editor]? with
  | none => rw [hs] at h; cases h
  | some surf =>
    cases surf with
    | flat v a b =>
      rw [hs] at h
      cases hst : s.tagStartOffset with
      | none => rw [hst] at h; cases h
      | some st => simp
    | structured nodes =>
      cases hsel : s.selection with
      | none => simp
      | some hc =>
        obtain ⟨host, caret⟩ := hc
        simp only
        cases hcc : caretContainer (nodesOf s.surfaces host) caret with
        | none => simp
        | some co =>
          simp only
          split <;> simp

theorem handleKeydown_terminator (s : State) (e : KeyEvent) (editor : Nat)
    (hfresh : e.tmTagHandler = false) (hcomp : s.isTagMode = true)
    (hbuf : trim s.currentTagText ≠ []) (hlist : dropdownVisible s = false)
    (hed : getActiveEditor s = some editor) (hterm : isTerminator e = true)
    (hhash : e.key ≠ ['#']) (hesc : e.key ≠ "Escape".toList) :
    handleKeydown s e =
      (if isSpaceLike e then applyTagSelection s editor (trim s.currentTagText)
       else resetTagState { s with storage := addTag s.storage (trim s.currentTagText) },
       Handled.consumed) := by
  have hesc' : (e.key == "Escape".toList) = false := by simpa using hesc
  have hhash' : (e.key == ['#']) = false := by simpa using hhash
  have hterm' : (isEnterLike e || isSpaceLike e || isTabLike e || isPunctuation e) = true := hterm
  have hlen : 0 < (trim s.currentTagText).length := List.length_pos.mpr hbuf
  unfold handleKeydown
  simp only [hfresh, hesc', hlist, hed, hhash', hcomp, hterm', hlen, Bool.false_eq_true,
    Bool.and_false, Bool.false_and, Bool.not_true, Bool.not_false, Bool.and_true, if_false,
    if_true, gt_iff_lt]
  cases isSpaceLike e <;> simp

/-- C9, as amended: in a Composing state with an active editor, a buffer whose
trimmed form `t` is non-empty and the suggestion list not visible, a space
runs `applyTagSelection(editor, t)`, which on a flat surface with a recorded
start offset replaces the typed span by `"#" ++ t ++ " "`; enter, tab and the
punctuation keys leave every surface text unchanged; and every terminator
records `t` and leaves the machine Idle (for a space on a flat surface, when a
start offset is recorded). -/
theorem terminator_commits (s : State) (e : KeyEvent) (editor : Nat)
    (hfresh : e.tmTagHandler = false) (hcomp : s.isTagMode = true)
    (hbuf : trim s.currentTagText ≠ []) (hlist : dropdownVisible s = false)
    (hed : getActiveEditor s = some editor) (hterm : isTerminator e = true)
    (hhash : e.key ≠ ['#']) (hesc : e.key ≠ "Escape".toList) :
    (isSpaceLike e = true →
      (handleKeydown s e).1 = applyTagSelection s editor (trim s.currentTagText)) ∧
    (∀ (v : Str) (c c2 st : Nat), isSpaceLike e = true →
      s.surfaces[editor]? = some (Surface.flat v c c2) → s.tagStartOffset = some st →
      (handleKeydown s e).1.surfaces[editor]? = some (Surface.flat
        (v.take st ++ ('#' :: trim s.currentTagText ++ [' ']) ++ v.drop c)
        ((v.take st).length + ('#' :: trim s.currentTagText ++ [' ']).length)
        ((v.take st).length + ('#' :: trim s.currentTagText ++ [' ']).length))) ∧
    (isSpaceLike e = false → (handleKeydown s e).1.surfaces = s.surfaces) ∧
    ((isSpaceLike e = true → canApply s editor = true) →
      trim s.currentTagText ∈ loadTags (handleKeydown s e).1.storage ∧
      (handleKeydown s e).1.isTagMode = false ∧
      (handleKeydown s e).1.currentTagText = []) := by
  rw [handleKeydown_terminator s e editor hfresh hcomp hbuf hlist hed hterm hhash hesc]
  have hmem : trim s.currentTagText ∈ addTag s.storage (trim s.currentTagText) :=
    (mem_addTag _ _ _).mpr (Or.inr ⟨(trim_idem _).symm, by rw [trim_idem]; exact hbuf⟩)
  refine ⟨?_, ?_, ?_, ?_⟩
  · intro hsp
    simp only [hsp, if_true]
  · intro v c c2 st hsp hsurf hst
    simp only [hsp, if_true]
    rw [applyTagSelection_flat_eq s editor v c c2 st _ hsurf hst, resetTagState_surfaces]
    exact getElem?_set_of_getElem? _ _ _ _ hsurf
  · intro hsp
    simp only [hsp, Bool.false_eq_true, if_false, resetTagState_surfaces]
  · intro hcan
    cases hsp : isSpaceLike e
    · simp only [Bool.false_eq_true, if_false, resetTagState_storage, resetTagState_isTagMode,
        resetTagState_currentTagText, loadTags]
      exact ⟨hmem, trivial, trivial⟩
    · obtain ⟨h1, h2, h3, _⟩ :=
        applyTagSelection_records s editor (trim s.currentTagText) (hcan hsp)
      simp only [if_true, loadTags, h1, h2, h3]
      exact ⟨hmem, trivial, trivial⟩

/-- C9, witness: a space after `say #wo`. -/
theorem terminator_commits_witness :
    (handleKeydown demoFlat (charKey ' ' 32)).1.surfaces[0]? =
      some (Surface.flat "say #wo  now".toList 8 8) ∧
    "wo".toList ∈ loadTags (handleKeydown demoFlat (charKey ' ' 32)).1.storage ∧
    (handleKeydown demoFlat (charKey ' ' 32)).1.isTagMode = false :=
  have h := terminator_commits demoFlat (charKey ' ' 32) 0 rfl rfl (by decide) rfl rfl rfl
    (by decide) (by decide)
  ⟨h.2.1 "say #wo now".toList 7 7 4 rfl rfl rfl, (h.2.2.2 (fun _ => rfl)).1,
    (h.2.2.2 (fun _ => rfl)).2.1⟩

/-- C9, counterexample: a full stop after `say #wo` records `wo` and ends the
composition, and the text stays `say #wo now`: the typed span is not replaced
by `#wo `. -/
theorem punctuation_keeps_text :
    isPunctuation (charKey '.' 190) = true ∧
    dropdownVisible demoFlat = false ∧
    (handleKeydown demoFlat (charKey '.' 190)).1.surfaces =
      [Surface.flat "say #wo now".toList 7 7] ∧
    (handleKeydown demoFlat (charKey '.' 190)).1.storage = ["wo".toList] ∧
    (handleKeydown demoFlat (charKey '.' 190)).1.isTagMode = false := by
  decide

/-! ## Surfaces other than the edited one -/

theorem getElem?_modifyNodes_ne (surfaces : List Surface) (host i : Nat)
    (f : List Str → List Str) (h : i ≠ host) :
    (modifyNodes surfaces host f)[i]? = surfaces[i]? := by
  unfold modifyNodes
  split
  · exact List.getElem?_set_ne (Ne.symm h)
  · rfl

@[simp] theorem notify_surfaces (s : State) (root : Nat) (data inputType : Str)
    (phases : List Phase) :
    (notifyContentEditableInput s root data inputType phases).1.surfaces = s.surfaces := rfl

theorem applyTagSelection_other (s : State) (editor i : Nat) (tag : Str) (hne : i ≠ editor)
    (hsel : ∀ host caret, s.selection = some (host, caret) → i ≠ host) :
    (applyTagSelection s editor tag).surfaces[i]? = s.surfaces[i]? := by
  unfold applyTagSelection
  cases hs : s.surfaces[editor]? with
  | none => rfl
  | some surf =>
    cases surf with
    | flat v a b =>
      cases hst : s.tagStartOffset with
      | none => rfl
      | some st =>
        simp only [resetTagState_surfaces]
        exact List.getElem?_set_ne (Ne.symm hne)
    | structured nodes =>
      cases hsl : s.selection with
      | none => rfl
      | some hc =>
        obtain ⟨host, caret⟩ := hc
        have hh : i ≠ host := hsel host caret hsl
        simp only
        cases hcc : caretContainer (nodesOf s.surfaces host) caret with
        | none =>
          simp only [resetTagState_surfaces, notify_surfaces]
          exact getElem?_modifyNodes_ne _ _ _ _ hh
        | some co =>
          simp only
          split
          · rfl
          · simp only [resetTagState_surfaces, notify_surfaces]
            exact getElem?_modifyNodes_ne _ _ _ _ hh

theorem pickedTag_editor (s : State) (editor : Nat) (tag : Str)
    (h : pickedTag s = some (editor, tag)) : s.dropdownSelectCallback = some editor := by
  unfold pickedTag at h
  split at h
  · cases h
  · split at h
    · cases h
    · split at h
      · rename_i hcb
        split at h
        · cases h
        · simp only [Option.some.injEq, Prod.mk.injEq] at h
          rw [hcb, h.1]
      · cases h

theorem setActiveDropdownIndex_surfaces (s : State) (idx : Int) :
    (setActiveDropdownIndex s idx).surfaces = s.surfaces := by
  unfold setActiveDropdownIndex
  split
  · rfl
  · split <;> rfl

theorem moveDropdownSelection_surfaces (s : State) (delta : Int) :
    (moveDropdownSelection s delta).surfaces = s.surfaces := by
  unfold moveDropdownSelection
  split
  · rfl
  · split
    · rfl
    · exact setActiveDropdownIndex_surfaces _ _

theorem handleKeydown_cases_aux (s : State) (e : KeyEvent) (r : State × Handled)
    (hr : handleKeydown s e = r) :
    r.1.surfaces = s.surfaces ∨
    ∃ editor tag, r.1 = applyTagSelection s editor tag ∧
      ((dropdownVisible s = true ∧ s.dropdownSelectCallback = some editor) ∨
        getActiveEditor s = some editor) := by
  unfold handleKeydown at hr
  by_cases h1 : e.tmTagHandler = true
  · rw [if_pos h1] at hr; subst hr; exact Or.inl rfl
  rw [if_neg h1] at hr
  by_cases h2 : (s.managerVisible && e.key == "Escape".toList) = true
  · rw [if_pos h2] at hr; subst hr; exact Or.inl rfl
  rw [if_neg h2] at hr
  by_cases h3 : (dropdownVisible s && (isDownKey e || isUpKey e)) = true
  · rw [if_pos h3] at hr; subst hr; exact Or.inl (moveDropdownSelection_surfaces _ _)
  rw [if_neg h3] at hr
  by_cases h4 : (dropdownVisible s && (isEnterLike e || isTabLike e || isSpaceLike e)) = true
  · rw [if_pos h4] at hr
    subst hr
    have hvis : dropdownVisible s = true := by
      simp only [Bool.and_eq_true] at h4
      exact h4.1
    unfold pickDropdownSelection
    cases hp : pickedTag s with
    | none => exact Or.inl rfl
    | some et =>
      obtain ⟨editor, tag⟩ := et
      exact Or.inr ⟨editor, tag, rfl, Or.inl ⟨hvis, pickedTag_editor s editor tag hp⟩⟩
  rw [if_neg h4] at hr
  by_cases h5 : (dropdownVisible s && e.key == "Escape".toList) = true
  · rw [if_pos h5] at hr; subst hr; exact Or.inl rfl
  rw [if_neg h5] at hr
  cases hed : getActiveEditor s with
  | none => rw [hed] at hr; subst hr; exact Or.inl rfl
  | some editor =>
    rw [hed] at hr
    simp only at hr
    by_cases h6 : (e.key == ['#']) = true
    · rw [if_pos h6] at hr; subst hr; exact Or.inl rfl
    rw [if_neg h6] at hr
    by_cases h7 : (!s.isTagMode) = true
    · rw [if_pos h7] at hr; subst hr; exact Or.inl rfl
    rw [if_neg h7] at hr
    by_cases h8 : (isEnterLike e || isSpaceLike e || isTabLike e || isPunctuation e) = true
    · rw [if_pos h8] at hr
      by_cases h9 : (trim s.currentTagText).length > 0
      · rw [if_pos h9] at hr
        by_cases h10 : (isSpaceLike e && !dropdownVisible s) = true
        · rw [if_pos h10] at hr; subst hr; exact Or.inr ⟨editor, _, rfl, Or.inr rfl⟩
        · rw [if_neg h10] at hr; subst hr; exact Or.inl rfl
      · rw [if_neg h9] at hr; subst hr; exact Or.inl rfl
    rw [if_neg h8] at hr
    by_cases h11 : (e.key == "Backspace".toList) = true
    · rw [if_pos h11] at hr
      by_cases h12 : s.currentTagText.length > 0
      · rw [if_pos h12] at hr; subst hr; exact Or.inl rfl
      · rw [if_neg h12] at hr; subst hr; exact Or.inl rfl
    rw [if_neg h11] at hr
    by_cases h13 : (utf16Length e.key == 1 && !e.ctrlKey && !e.metaKey && !e.altKey) = true
    · rw [if_pos h13] at hr; subst hr; exact Or.inl rfl
    · rw [if_neg h13] at hr; subst hr; exact Or.inl rfl

theorem handleKeydown_cases (s : State) (e : KeyEvent) :
    (handleKeydown s e).1.surfaces = s.surfaces ∨
    ∃ editor tag, (handleKeydown s e).1 = applyTagSelection s editor tag ∧
      ((dropdownVisible s = true ∧ s.dropdownSelectCallback = some editor) ∨
        getActiveEditor s = some editor) :=
  handleKeydown_cases_aux s e _ rfl

/-- C8, as amended: a keystroke leaves unchanged every surface that is neither
the active editor, nor the editor captured by the visible suggestion list, nor
the surface holding the selection; and a change of focus alone changes nothing
in the machine: Composing, the buffer and the recorded start offset are kept. -/
theorem other_surfaces_untouched (s : State) (e : KeyEvent) (i : Nat)
    (hact : getActiveEditor s ≠ some i)
    (hcb : dropdownVisible s = true → s.dropdownSelectCallback ≠ some i)
    (hsel : ∀ host caret, s.selection = some (host, caret) → i ≠ host) :
    (handleKeydown s e).1.surfaces[i]? = s.surfaces[i]? ∧
    (∀ el : Nat, (focus s el).isTagMode = s.isTagMode ∧
      (focus s el).currentTagText = s.currentTagText ∧
      (focus s el).tagStartOffset = s.tagStartOffset) := by
  refine ⟨?_, fun el => ⟨rfl, rfl, rfl⟩⟩
  rcases handleKeydown_cases s e with h | ⟨editor, tag, h, hor⟩
  · rw [h]
  · rw [h]
    have hne : i ≠ editor := by
      intro hie
      rcases hor with ⟨hv, hc⟩ | ha
      · exact hcb hv (by rw [hc, hie])
      · exact hact (by rw [ha, hie])
    exact applyTagSelection_other s editor i tag hne hsel

/-- C8, witness: on the page with two flat surfaces the first has the focus; a
space ending the buffer `x` leaves the second one as it is. -/
theorem other_surfaces_untouched_witness :
    (handleKeydown demoTwoComposing (charKey ' ' 32)).1.surfaces[1]? =
      some (Surface.flat "hello".toList 5 5) :=
  (other_surfaces_untouched demoTwoComposing (charKey ' ' 32) 1 (by decide) (by decide)
    (fun _ _ h => by cases h)).1

/-- C8, counterexample: `#` is typed while the first surface has the focus, the
focus then moves to the second surface, which holds `hello`; the machine is
still Composing, and after `x` and a space the text of the second surface is
`#x `, with `x` recorded. -/
theorem focus_change_keeps_composing :
    (focus (keystroke demoPlatform demoTwo (charKey '#' 51)) 1).isTagMode = true ∧
    (keystrokes demoPlatform (focus (keystroke demoPlatform demoTwo (charKey '#' 51)) 1)
      [charKey 'x' 88, charKey ' ' 32]).surfaces[1]? = some (Surface.flat "#x ".toList 3 3) ∧
    (keystrokes demoPlatform (focus (keystroke demoPlatform demoTwo (charKey '#' 51)) 1)
      [charKey 'x' 88, charKey ' ' 32]).storage = ["x".toList] := by
  decide

/-! ## Order of the store -/

theorem strictlySorted_addTag (storage : List Str) (tag : Str) (h : StrictlySorted storage) :
    StrictlySorted (addTag storage tag) := by
  unfold addTag
  simp only
  split
  · exact h
  · split
    · exact h
    · exact strictlySorted_saveTags _

theorem strictlySorted_removeTag (storage : List Str) (tag : Str) :
    StrictlySorted (removeTag storage tag) := strictlySorted_saveTags _

theorem strictlySorted_importTagsFromString (P : Platform) (storage : List Str) (str : Str)
    (h : StrictlySorted storage) : StrictlySorted (importTagsFromString P storage str) := by
  unfold importTagsFromString
  simp only
  split
  · exact h
  · split
    · exact h
    · split
      · exact h
      · exact strictlySorted_saveTags _

theorem strictlySorted_applyOp (P : Platform) (storage : List Str) (op : StoreOp)
    (h : StrictlySorted storage) : StrictlySorted (applyOp P storage op) := by
  cases op with
  | add tag => exact strictlySorted_addTag storage tag h
  | remove tag => exact strictlySorted_removeTag storage tag
  | importFrom str => exact strictlySorted_importTagsFromString P storage str h

theorem strictlySorted_runOps (P : Platform) (ops : List StoreOp) :
    ∀ storage : List Str, StrictlySorted storage → StrictlySorted (runOps P storage ops) := by
  induction ops with
  | nil => intro storage h; exact h
  | cons op ops ih =>
    intro storage h
    exact ih _ (strictlySorted_applyOp P storage op h)

theorem strictlySorted_ext : ∀ l₁ l₂ : List Str, StrictlySorted l₁ → StrictlySorted l₂ →
    (∀ y, y ∈ l₁ ↔ y ∈ l₂) → l₁ = l₂
  | [], [], _, _, _ => rfl
  | [], b :: l₂, _, _, h => absurd ((h b).mpr (List.mem_cons_self _ _)) (List.not_mem_nil _)
  | a :: l₁, [], _, _, h => absurd ((h a).mp (List.mem_cons_self _ _)) (List.not_mem_nil _)
  | a :: l₁, b :: l₂, h₁, h₂, h => by
    have p₁ := List.pairwise_cons.mp h₁
    have p₂ := List.pairwise_cons.mp h₂
    have hab : a = b := by
      by_contra hne
      have ha : a ∈ l₂ := by
        rcases List.mem_cons.mp ((h a).mp (List.mem_cons_self _ _)) with e | m
        · exact absurd e hne
        · exact m
      have hb : b ∈ l₁ := by
        rcases List.mem_cons.mp ((h b).mpr (List.mem_cons_self _ _)) with e | m
        · exact absurd e.symm hne
        · exact m
      have := strLt_trans a b a (p₁.1 b hb) (p₂.1 a ha)
      rw [strLt_irrefl] at this
      cases this
    subst hab
    have hna₁ : a ∉ l₁ := fun m => by
      have := p₁.1 a m
      rw [strLt_irrefl] at this
      cases this
    have hna₂ : a ∉ l₂ := fun m => by
      have := p₂.1 a m
      rw [strLt_irrefl] at this
      cases this
    have ht : l₁ = l₂ := by
      apply strictlySorted_ext l₁ l₂ p₁.2 p₂.2
      intro y
      constructor
      · intro m
        rcases List.mem_cons.mp ((h y).mp (List.mem_cons_of_mem _ m)) with e | m'
        · subst e; exact absurd m hna₁
        · exact m'
      · intro m
        rcases List.mem_cons.mp ((h y).mpr (List.mem_cons_of_mem _ m)) with e | m'
        · subst e; exact absurd m hna₂
        · exact m'
    rw [ht]

theorem mem_foldl_addTag (y : Str) : ∀ (xs : List Str) (storage : List Str),
    y ∈ xs.foldl addTag storage ↔ y ∈ storage ∨ (y ≠ [] ∧ ∃ x ∈ xs, trim x = y)
  | [], storage => by simp
  | x :: xs, storage => by
    rw [List.foldl_cons, mem_foldl_addTag y xs (addTag storage x), mem_addTag]
    constructor
    · rintro ((h | ⟨h1, h2⟩) | ⟨h1, z, hz, h2⟩)
      · exact Or.inl h
      · exact Or.inr ⟨by rw [h1]; exact h2, x, List.mem_cons_self _ _, h1.symm⟩
      · exact Or.inr ⟨h1, z, List.mem_cons_of_mem _ hz, h2⟩
    · rintro (h | ⟨h1, z, hz, h2⟩)
      · exact Or.inl (Or.inl h)
      · rcases List.mem_cons.mp hz with e | m
        · subst e
          exact Or.inl (Or.inr ⟨h2.symm, by rw [h2]; exact h1⟩)
        · exact Or.inr ⟨h1, z, m, h2⟩

theorem runOps_add (P : Platform) (xs : List Str) (storage : List Str) :
    runOps P storage (xs.map StoreOp.add) = xs.foldl addTag storage := by
  unfold runOps
  rw [List.foldl_map]
  rfl

/-- C10: starting from the empty store, after every sequence of `addTag`,
`removeTag` and `importTagsFromString` calls the list of `loadTags` is strictly
increasing in the order of `sort()`, hence sorted and free of duplicates; and
adding the same set of tags in two orders gives the same list. -/
theorem store_strictly_sorted (P : Platform) (ops : List StoreOp) (xs ys : List Str)
    (hsame : ∀ t, t ∈ xs ↔ t ∈ ys) :
    StrictlySorted (loadTags (runOps P [] ops)) ∧
    (loadTags (runOps P [] ops)).Nodup ∧
    loadTags (runOps P [] (xs.map StoreOp.add)) = loadTags (runOps P [] (ys.map StoreOp.add)) := by
  have hs := strictlySorted_runOps P ops [] List.Pairwise.nil
  refine ⟨hs, ?_, ?_⟩
  · unfold loadTags
    refine List.Pairwise.imp ?_ hs
    intro a b hab heq
    rw [heq, strLt_irrefl] at hab
    cases hab
  · unfold loadTags
    apply strictlySorted_ext _ _ (strictlySorted_runOps P _ [] List.Pairwise.nil)
      (strictlySorted_runOps P _ [] List.Pairwise.nil)
    intro y
    rw [runOps_add, runOps_add, mem_foldl_addTag, mem_foldl_addTag]
    constructor
    · rintro (h | ⟨h1, z, hz, h2⟩)
      · exact Or.inl h
      · exact Or.inr ⟨h1, z, (hsame z).mp hz, h2⟩
    · rintro (h | ⟨h1, z, hz, h2⟩)
      · exact Or.inl h
      · exact Or.inr ⟨h1, z, (hsame z).mpr hz, h2⟩

/-- C10, witness: a removal and an import between additions, and the tags `b`,
`a`, `b` against `a`, `b`. -/
theorem store_strictly_sorted_witness :
    StrictlySorted (loadTags (runOps demoPlatform []
      [StoreOp.add "b".toList, StoreOp.importFrom "#c\na".toList, StoreOp.remove "b".toList])) ∧
    loadTags (runOps demoPlatform []
      [StoreOp.add "b".toList, StoreOp.importFrom "#c\na".toList, StoreOp.remove "b".toList]) =
      ["a".toList, "c".toList] ∧
    loadTags (runOps demoPlatform [] (["b".toList, "a".toList, "b".toList].map StoreOp.add)) =
      loadTags (runOps demoPlatform [] (["a".toList, "b".toList].map StoreOp.add)) :=
  have h := store_strictly_sorted demoPlatform
    [StoreOp.add "b".toList, StoreOp.importFrom "#c\na".toList, StoreOp.remove "b".toList]
    ["b".toList, "a".toList, "b".toList] ["a".toList, "b".toList]
    (by intro t; simp only [List.mem_cons, List.mem_singleton, List.not_mem_nil, or_false]; tauto)
  ⟨h.1, by decide, h.2.2⟩

/-! ## Typing a tag on a flat surface -/

theorem sameBesidesList_hideDropdown (s : State) : SameBesidesList s (hideDropdown s) :=
  ⟨rfl, rfl, rfl, rfl, rfl, rfl, rfl, rfl⟩

theorem dropdownVisible_hideDropdown (s : State) : dropdownVisible (hideDropdown s) = false := by
  unfold dropdownVisible hideDropdown
  cases s.dd <;> rfl

theorem sameBesidesList_showDropdown (s : State) (items : List Str) (ed : Nat) :
    SameBesidesList s (showDropdown s items ed) := by
  cases items with
  | nil => exact ⟨rfl, rfl, rfl, rfl, rfl, rfl, rfl, rfl⟩
  | cons x xs => exact ⟨rfl, rfl, rfl, rfl, rfl, rfl, rfl, rfl⟩

theorem dropdownVisible_showDropdown (s : State) (items : List Str) (ed : Nat)
    (h : items ≠ []) : dropdownVisible (showDropdown s items ed) = true := by
  unfold dropdownVisible
  rw [(showDropdown_nonempty s items ed h).1]

theorem updateDropdown_eq (P : Platform) (s : State) (ed : Nat) :
    SameBesidesList s (updateDropdownForCurrentTag P s ed) ∧
    dropdownVisible (updateDropdownForCurrentTag P s ed) =
      (s.isTagMode && !(candidates P s.storage s.currentTagText).isEmpty) := by
  unfold updateDropdownForCurrentTag
  cases hm : s.isTagMode
  · exact ⟨sameBesidesList_hideDropdown s, by simp [dropdownVisible_hideDropdown]⟩
  · simp only [Bool.not_true, Bool.false_eq_true, if_false, Bool.true_and]
    have hc : ((loadTags s.storage).filter
        (fun t => includes (P.toLowerCase t) (P.toLowerCase s.currentTagText))).take 20 =
        candidates P s.storage s.currentTagText := rfl
    rw [hc]
    cases he : (candidates P s.storage s.currentTagText).isEmpty
    · simp only [Bool.false_eq_true, if_false, Bool.not_false]
      exact ⟨sameBesidesList_showDropdown _ _ _,
        dropdownVisible_showDropdown _ _ _ (by intro h; rw [h] at he; cases he)⟩
    · simp only [if_true, Bool.not_true]
      exact ⟨sameBesidesList_hideDropdown s, dropdownVisible_hideDropdown s⟩

theorem beq_false_of_length_ne (a b : Str) (h : a.length ≠ b.length) : (a == b) = false := by
  cases hab : a == b
  · rfl
  · have : a = b := by simpa using hab
    rw [this] at h
    exact absurd rfl h

theorem getActiveEditor_of (s : State) (A : Nat) (surf : Surface)
    (hact : s.activeElement = some A) (hs : s.surfaces[A]? = some surf) :
    getActiveEditor s = some A := by
  unfold getActiveEditor
  rw [hact]
  simp [hs]

theorem handleKeydown_char (s : State) (ch : Char) (code A : Nat)
    (hcomp : s.isTagMode = true) (hed : getActiveEditor s = some A)
    (hch : isTagChar ch = true) (hcode : isPlainCode code = true) :
    handleKeydown s (charKey ch code) =
      ({ s with currentTagText := s.currentTagText ++ [ch], timers := s.timers ++ [A] },
        Handled.passed) := by
  unfold isTagChar at hch
  unfold isPlainCode at hcode
  simp only [Bool.and_eq_true, bne_iff_ne, ne_eq, Bool.not_eq_true', Bool.or_eq_false_iff,
    beq_eq_false_iff_ne] at hch hcode
  obtain ⟨⟨⟨h0, h1⟩, hsp⟩, h3⟩ := hch
  have hunit : utf16Length [ch] = 1 := by simp [utf16Length, h0]
  have hdown : isDownKey (charKey ch code) = false := by
    simp [isDownKey, charKey, beq_false_of_length_ne, hcode]
  have hup : isUpKey (charKey ch code) = false := by
    simp [isUpKey, charKey, beq_false_of_length_ne, hcode]
  have henter : isEnterLike (charKey ch code) = false := by
    simp [isEnterLike, charKey, beq_false_of_length_ne, hcode]
  have hspace : isSpaceLike (charKey ch code) = false := by
    simp [isSpaceLike, charKey, hsp, hcode]
  have htab : isTabLike (charKey ch code) = false := by
    simp [isTabLike, charKey, beq_false_of_length_ne, hcode]
  have hpunct : isPunctuation (charKey ch code) = false := by
    simp [isPunctuation, charKey, h3]
  have hesc : ((charKey ch code).key == "Escape".toList) = false :=
    beq_false_of_length_ne _ _ (by simp [charKey])
  have hback : ((charKey ch code).key == "Backspace".toList) = false :=
    beq_false_of_length_ne _ _ (by simp [charKey])
  have hhash : ((charKey ch code).key == ['#']) = false := by
    simp [charKey, h1]
  unfold handleKeydown
  simp only [hdown, hup, henter, hspace, htab, hpunct, hesc, hback, hhash, hcomp, hed,
    Bool.or_self, Bool.and_false, Bool.false_eq_true, Bool.not_true, if_false]
  simp [charKey, Handled.passed, hunit]

theorem handleKeydown_hash (s : State) (code A : Nat) (v : Str) (c0 c1 : Nat)
    (hvis : dropdownVisible s = false) (hact : s.activeElement = some A)
    (hs : s.surfaces[A]? = some (Surface.flat v c0 c1)) :
    handleKeydown s (charKey '#' code) =
      ({ s with isTagMode := true, currentTagText := [], tagStartOffset := some c0,
                timers := s.timers ++ [A] }, Handled.passed) := by
  have hed := getActiveEditor_of s A _ hact hs
  have hesc : ((charKey '#' code).key == "Escape".toList) = false :=
    beq_false_of_length_ne _ _ (by simp [charKey])
  have hhash : ((charKey '#' code).key == ['#']) = true := by simp [charKey]
  unfold handleKeydown
  simp only [hvis, hesc, hhash, hed, hs, Bool.and_false, Bool.false_and, Bool.false_eq_true,
    if_false, if_true]
  simp [charKey, Handled.passed]

theorem runTimers_one (P : Platform) (s : State) (A : Nat) (h : s.timers = [A]) :
    runTimers P s = updateDropdownForCurrentTag P { s with timers := [] } A := by
  unfold runTimers
  rw [h]
  rfl

theorem runTimers_none (P : Platform) (s : State) (h : s.timers = []) : runTimers P s = s := by
  unfold runTimers
  rw [h]
  cases s
  simp only [List.foldl_nil]
  simp only at h
  rw [h]

theorem insert_at_caret (v pre : Str) (c0 : Nat) (ch : Char) (h : c0 ≤ v.length) :
    (v.take c0 ++ '#' :: pre ++ v.drop c0).take (c0 + 1 + pre.length) ++ [ch] ++
      (v.take c0 ++ '#' :: pre ++ v.drop c0).drop (c0 + 1 + pre.length) =
    v.take c0 ++ '#' :: (pre ++ [ch]) ++ v.drop c0 := by
  have hl : (v.take c0 ++ '#' :: pre).length = c0 + 1 + pre.length := by
    simp
    omega
  rw [← hl, List.take_left, List.drop_left]
  simp

theorem typing_char (P : Platform) (s : State) (A : Nat) (v : Str) (c0 : Nat)
    (storage : List Str) (pre : Str) (ch : Char) (code : Nat) (hc0 : c0 ≤ v.length)
    (h : TypingOn P s A v c0 storage pre)
    (hch : isTagChar ch = true) (hcode : isPlainCode code = true) :
    TypingOn P (keystroke P s (charKey ch code)) A v c0 storage (pre ++ [ch]) := by
  obtain ⟨h1, h2, h3, h4, h5, h6, h7, _⟩ := h
  have hed := getActiveEditor_of s A _ h5 h4
  unfold keystroke
  rw [handleKeydown_char s ch code A h1 hed hch hcode]
  simp only [Handled.passed, Bool.false_eq_true, if_false]
  have hda : defaultAction
      { s with currentTagText := s.currentTagText ++ [ch], timers := s.timers ++ [A] }
      (charKey ch code) =
      { s with currentTagText := pre ++ [ch], timers := [A],
               surfaces := s.surfaces.set A (Surface.flat
                 (v.take c0 ++ '#' :: (pre ++ [ch]) ++ v.drop c0)
                 (c0 + 1 + pre.length + 1) (c0 + 1 + pre.length + 1)) } := by
    unfold defaultAction
    simp only [charKey, List.length_singleton, beq_self_eq_true, Bool.not_false, Bool.and_self,
      if_true, h5, h4, h2, h7, List.nil_append]
    rw [insert_at_caret v pre c0 ch hc0]
  rw [hda, runTimers_one P _ A rfl]
  obtain ⟨⟨g1, g2, g3, g4, g5, g6, g7, _⟩, gv⟩ := updateDropdown_eq P
    ({ s with currentTagText := pre ++ [ch], timers := [],
              surfaces := s.surfaces.set A (Surface.flat
                (v.take c0 ++ '#' :: (pre ++ [ch]) ++ v.drop c0)
                (c0 + 1 + pre.length + 1) (c0 + 1 + pre.length + 1)) } : State) A
  refine ⟨by rw [g2]; exact h1, g3, by rw [g4]; exact h3, ?_, by rw [g6]; exact h5,
    by rw [g1]; exact h6, g7, ?_⟩
  · rw [g5]
    simp only
    rw [getElem?_set_of_getElem? _ _ _ _ h4]
    simp
    omega
  · rw [gv]
    simp only [h1, h6, Bool.true_and]

theorem typing_hash (P : Platform) (s : State) (A : Nat) (v : Str) (c0 code : Nat)
    (hvis : dropdownVisible s = false) (hact : s.activeElement = some A)
    (hs : s.surfaces[A]? = some (Surface.flat v c0 c0)) (ht : s.timers = []) :
    TypingOn P (keystroke P s (charKey '#' code)) A v c0 s.storage [] := by
  unfold keystroke
  rw [handleKeydown_hash s code A v c0 c0 hvis hact hs]
  simp only [Handled.passed, Bool.false_eq_true, if_false]
  have hda : defaultAction
      { s with isTagMode := true, currentTagText := [], tagStartOffset := some c0,
               timers := s.timers ++ [A] } (charKey '#' code) =
      { s with isTagMode := true, currentTagText := [], tagStartOffset := some c0,
               timers := [A],
               surfaces := s.surfaces.set A (Surface.flat
                 (v.take c0 ++ '#' :: [] ++ v.drop c0) (c0 + 1) (c0 + 1)) } := by
    unfold defaultAction
    simp only [charKey, List.length_singleton, beq_self_eq_true, Bool.not_false, Bool.and_self,
      if_true, hact, hs, ht, List.nil_append]
  rw [hda, runTimers_one P _ A rfl]
  obtain ⟨⟨g1, g2, g3, g4, g5, g6, g7, _⟩, gv⟩ := updateDropdown_eq P
    ({ s with isTagMode := true, currentTagText := [], tagStartOffset := some c0,
              timers := [],
              surfaces := s.surfaces.set A (Surface.flat
                (v.take c0 ++ '#' :: [] ++ v.drop c0) (c0 + 1) (c0 + 1)) } : State) A
  refine ⟨by rw [g2], g3, by rw [g4], ?_, by rw [g6]; exact hact, by rw [g1], g7, ?_⟩
  · rw [g5]
    simp only
    rw [getElem?_set_of_getElem? _ _ _ _ hs]
    simp
  · rw [gv]
    simp only [Bool.true_and]

theorem typing_chars (P : Platform) (A : Nat) (v : Str) (c0 : Nat) (storage : List Str)
    (code : Char → Nat) (hc0 : c0 ≤ v.length) :
    ∀ (b pre : Str) (s : State), TypingOn P s A v c0 storage pre →
      (∀ ch ∈ b, isTagChar ch = true ∧ isPlainCode (code ch) = true) →
      TypingOn P (keystrokes P s (b.map (fun ch => charKey ch (code ch)))) A v c0 storage
        (pre ++ b)
  | [], pre, s, h, _ => by
    rw [List.append_nil]
    exact h
  | ch :: b, pre, s, h, hb => by
    have hch := hb ch (List.mem_cons_self _ _)
    have := typing_chars P A v c0 storage code hc0 b (pre ++ [ch])
      (keystroke P s (charKey ch (code ch)))
      (typing_char P s A v c0 storage pre ch (code ch) hc0 h hch.1 hch.2)
      (fun x hx => hb x (List.mem_cons_of_mem _ hx))
    rw [List.append_assoc, List.singleton_append] at this
    exact this

theorem typing_space (P : Platform) (s : State) (A : Nat) (v : Str) (c0 code : Nat)
    (storage : List Str) (b : Str) (hc0 : c0 ≤ v.length)
    (h : TypingOn P s A v c0 storage b) (hne : b ≠ [])
    (htrim : trim b = b)
    (hnone : candidates P storage b = []) :
    (keystroke P s (charKey ' ' code)).surfaces[A]? =
      some (Surface.flat (v.take c0 ++ ('#' :: b ++ [' ']) ++ v.drop c0)
        (c0 + b.length + 2) (c0 + b.length + 2)) ∧
    b ∈ loadTags (keystroke P s (charKey ' ' code)).storage ∧
    (keystroke P s (charKey ' ' code)).isTagMode = false ∧
    (keystroke P s (charKey ' ' code)).currentTagText = [] := by
  obtain ⟨h1, h2, h3, h4, h5, h6, h7, h8⟩ := h
  have hed := getActiveEditor_of s A _ h5 h4
  have hvis : dropdownVisible s = false := by rw [h8, hnone]; rfl
  have hk := handleKeydown_terminator s (charKey ' ' code) A rfl h1
    (by rw [h2, htrim]; exact hne) hvis hed (by simp [isTerminator, isSpaceLike, charKey])
    (by simp [charKey]) (by simp [charKey])
  have hsp : isSpaceLike (charKey ' ' code) = true := by simp [isSpaceLike, charKey]
  rw [hsp, if_pos rfl, h2, htrim] at hk
  unfold keystroke
  rw [hk]
  simp only [Handled.consumed, if_true]
  rw [applyTagSelection_flat_eq s A _ _ _ c0 b h4 h3]
  rw [runTimers_none P _ (by rw [resetTagState_timers]; exact h7)]
  have hl : (v.take c0 ++ '#' :: b).length = c0 + 1 + b.length := by
    simp
    omega
  have e1 : List.take c0 (v.take c0 ++ '#' :: b ++ v.drop c0) = v.take c0 := by
    rw [List.append_assoc]
    exact List.take_left' (by simp; omega)
  have e2 : List.drop (c0 + 1 + b.length) (v.take c0 ++ '#' :: b ++ v.drop c0) = v.drop c0 :=
    List.drop_left' hl
  refine ⟨?_, ?_, rfl, rfl⟩
  · rw [resetTagState_surfaces]
    simp only
    rw [getElem?_set_of_getElem? _ _ _ _ h4, e1, e2]
    simp
    omega
  · rw [resetTagState_storage]
    simp only [loadTags]
    exact (mem_addTag _ _ _).mpr (Or.inr ⟨htrim.symm, by rw [htrim]; exact hne⟩)

/-- C4, as amended: from an Idle state at rest (suggestion list hidden, no
callback queued) with the flat surface `A` focused, text `v`, collapsed caret
at `c`: after the keystrokes `#`, the characters of a non-empty buffer `b`
(each one UTF-16 code unit, none of them `#`, the space or a punctuation mark,
none with the key code of tab, enter, space or an arrow; `b` neither beginning
nor ending with white space that `trim()` strips) and space, when `b` has no
candidate in the store, the text of `A` is `v[0..c] ++ "#" ++ b ++ " " ++
v[c..]`, `b` is in the store and the machine is Idle. -/
theorem commit_on_space (P : Platform) (s0 : State) (A : Nat) (v : Str) (c : Nat) (b : Str)
    (code : Char → Nat)
    (hidle : s0.isTagMode = false) (hvis : dropdownVisible s0 = false)
    (htimers : s0.timers = [])
    (hact : s0.activeElement = some A) (hsurf : s0.surfaces[A]? = some (Surface.flat v c c))
    (hc : c ≤ v.length) (hne : b ≠ [])
    (hb : ∀ ch ∈ b, isTagChar ch = true ∧ isPlainCode (code ch) = true)
    (htrim : trim b = b)
    (hnone : candidates P s0.storage b = []) :
    (keystrokes P s0 (charKey '#' (code '#') :: b.map (fun ch => charKey ch (code ch)) ++
      [charKey ' ' (code ' ')])).surfaces[A]? =
      some (Surface.flat (v.take c ++ ('#' :: b ++ [' ']) ++ v.drop c)
        (c + b.length + 2) (c + b.length + 2)) ∧
    b ∈ loadTags (keystrokes P s0 (charKey '#' (code '#') ::
      b.map (fun ch => charKey ch (code ch)) ++ [charKey ' ' (code ' ')])).storage ∧
    (keystrokes P s0 (charKey '#' (code '#') :: b.map (fun ch => charKey ch (code ch)) ++
      [charKey ' ' (code ' ')])).isTagMode = false ∧
    (keystrokes P s0 (charKey '#' (code '#') :: b.map (fun ch => charKey ch (code ch)) ++
      [charKey ' ' (code ' ')])).currentTagText = [] := by
  have _ := hidle
  have h1 := typing_hash P s0 A v c (code '#') hvis hact hsurf htimers
  have h2 := typing_chars P A v c s0.storage code hc b [] _ h1 hb
  rw [List.nil_append] at h2
  have h3 := typing_space P _ A v c (code ' ') s0.storage b hc h2 hne htrim hnone
  have hk : keystrokes P s0 (charKey '#' (code '#') :: b.map (fun ch => charKey ch (code ch)) ++
      [charKey ' ' (code ' ')]) =
      keystroke P (keystrokes P (keystroke P s0 (charKey '#' (code '#')))
        (b.map (fun ch => charKey ch (code ch)))) (charKey ' ' (code ' ')) := by
    unfold keystrokes
    rw [List.cons_append, List.foldl_cons, List.foldl_append]
    rfl
  rw [hk]
  exact h3

/-- C4, witness: the empty store and an empty text field; `#`, `proj`, space. -/
theorem commit_on_space_witness :
    (keystrokes demoPlatform demoEmpty
      [charKey '#' 0, charKey 'p' 0, charKey 'r' 0, charKey 'o' 0, charKey 'j' 0,
       charKey ' ' 0]).surfaces[0]? = some (Surface.flat "#proj ".toList 6 6) ∧
    (keystrokes demoPlatform demoEmpty
      [charKey '#' 0, charKey 'p' 0, charKey 'r' 0, charKey 'o' 0, charKey 'j' 0,
       charKey ' ' 0]).storage = ["proj".toList] ∧
    (keystrokes demoPlatform demoEmpty
      [charKey '#' 0, charKey 'p' 0, charKey 'r' 0, charKey 'o' 0, charKey 'j' 0,
       charKey ' ' 0]).isTagMode = false :=
  have h := commit_on_space demoPlatform demoEmpty 0 [] 0 "proj".toList (fun _ => 0)
    rfl rfl rfl rfl rfl (by decide) (by decide) (by decide) (by decide) rfl
  ⟨h.1, by decide, h.2.2.1⟩

/-- C4, counterexample: with the empty store and an empty text field, the
keystrokes `#`, the character U+1F600 (two UTF-16 code units, so that
`key.length === 1` fails) and space leave the text `#` followed by that
character, without the space, and store nothing; the keystrokes `#`, `a`, the
no-break space U+00A0 and space leave the text `#a ` and store `a`, as the
buffer is trimmed. -/
theorem untrimmed_buffer_not_committed :
    (keystrokes demoPlatform demoEmpty
      [charKey '#' 51, charKey (Char.ofNat 0x1F600) 0, charKey ' ' 32]).surfaces =
      [Surface.flat ['#', Char.ofNat 0x1F600] 2 2] ∧
    (keystrokes demoPlatform demoEmpty
      [charKey '#' 51, charKey (Char.ofNat 0x1F600) 0, charKey ' ' 32]).storage = [] ∧
    (keystrokes demoPlatform demoEmpty
      [charKey '#' 51, charKey 'a' 65, charKey (Char.ofNat 0xA0) 0, charKey ' ' 32]).surfaces =
      [Surface.flat "#a ".toList 3 3] ∧
    (keystrokes demoPlatform demoEmpty
      [charKey '#' 51, charKey 'a' 65, charKey (Char.ofNat 0xA0) 0, charKey ' ' 32]).storage =
      ["a".toList] := by
  decide

/-! ## Import -/

theorem importTagsFromString_eq (P : Platform) (storage : List Str) (str : Str) :
    importTagsFromString P storage str =
      if (importEntries P str).isEmpty then storage
      else saveTags (jsSort (setOf (loadTags storage ++ importEntries P str))) := by
  unfold importTagsFromString importEntries
  by_cases h : str.isEmpty = true
  · simp only [h, if_true, List.isEmpty_nil]
  · simp only [h, Bool.false_eq_true, if_false]
    split
    · simp
    · rfl

theorem mem_merge (y : Str) (xs : List Str) : y ∈ saveTags (jsSort (setOf xs)) ↔ y ∈ xs := by
  rw [mem_saveTags, mem_jsSort, mem_setOf]

/-- C11: importing the same string twice leaves the store as a single import
does, whatever the store held before. -/
theorem import_idempotent (P : Platform) (storage : List Str) (str : Str) :
    importTagsFromString P (importTagsFromString P storage str) str =
      importTagsFromString P storage str := by
  rw [importTagsFromString_eq P storage str]
  by_cases h : (importEntries P str).isEmpty = true
  · rw [if_pos h, importTagsFromString_eq, if_pos h]
  · rw [if_neg h, importTagsFromString_eq, if_neg h]
    apply strictlySorted_ext _ _ (strictlySorted_saveTags _) (strictlySorted_saveTags _)
    intro y
    simp only [loadTags, mem_merge, List.mem_append]
    tauto

theorem mem_importTagsFromString (P : Platform) (storage : List Str) (str y : Str) :
    y ∈ importTagsFromString P storage str ↔ y ∈ storage ∨ y ∈ importEntries P str := by
  rw [importTagsFromString_eq]
  by_cases h : (importEntries P str).isEmpty = true
  · rw [if_pos h]
    have : importEntries P str = [] := by simpa using h
    simp [this]
  · rw [if_neg h, mem_merge]
    simp [loadTags]

theorem importEntries_lines (P : Platform) (str : Str) (hne : str ≠ [])
    (h : startsWith (trim str) ['['] = false) :
    importEntries P str =
      ((((splitLines (trim str)).map trim).filter (fun l => !l.isEmpty)).map
        (fun t => trim (stripHash t))).filter (fun t => !t.isEmpty) := by
  unfold importEntries
  have he : str.isEmpty = false := by
    cases str with
    | nil => exact absurd rfl hne
    | cons c s => rfl
  simp [he, h]

theorem importEntries_array (P : Platform) (str : Str) (xs : List JVal) (ss : List Str)
    (hne : str ≠ []) (h : startsWith (trim str) ['['] = true)
    (hp : P.jsonParse (trim str) = some (JVal.arr xs)) (hxs : xs ≠ [])
    (hs : stringsOf xs = some ss) :
    importEntries P str =
      (ss.map (fun t => trim (stripHash t))).filter (fun t => !t.isEmpty) := by
  unfold importEntries
  have he : str.isEmpty = false := by
    cases str with
    | nil => exact absurd rfl hne
    | cons c s => rfl
  have hx : xs.isEmpty = false := by
    cases xs with
    | nil => exact absurd rfl hxs
    | cons c s => rfl
  simp [he, h, hp, hx, hs]

/-- C12: the import evaluated on the store holding `z`.  The text `#a`, ` b `
and two empty lines adds `a` and `b`, and so does the JSON array `["#a","b"]`;
the empty JSON array `[]`, which `JSON.parse` reads as an array without
elements, is then read as one line of plain text and adds the tag `[]`. -/
theorem import_at_witnesses :
    importTagsFromString demoJson ["z".toList] "#a\n b \n\n".toList =
      ["a".toList, "b".toList, "z".toList] ∧
    importTagsFromString demoJson ["z".toList] "[\"#a\",\"b\"]".toList =
      ["a".toList, "b".toList, "z".toList] ∧
    (match demoJson.jsonParse "[]".toList with
      | some (JVal.arr xs) => xs.isEmpty
      | _ => false) = true ∧
    importTagsFromString demoJson ["z".toList] "[]".toList = ["[]".toList, "z".toList] := by
  refine ⟨by decide, by decide, by decide, by decide⟩

/-! ## Candidates -/

theorem startsWith_iff : ∀ s p : Str, startsWith s p = true ↔ ∃ post, s = p ++ post
  | s, [] => by simp [startsWith]
  | [], d :: p => by simp [startsWith]
  | c :: s, d :: p => by
    simp only [startsWith, Bool.and_eq_true, beq_iff_eq, startsWith_iff s p, List.cons_append,
      List.cons.injEq]
    constructor
    · rintro ⟨h, post, hp⟩
      exact ⟨post, h, hp⟩
    · rintro ⟨post, h, hp⟩
      exact ⟨h, post, hp⟩

theorem includes_iff : ∀ t q : Str, includes t q = true ↔ ∃ pre post, t = pre ++ q ++ post
  | [], q => by
    simp only [includes, startsWith_iff]
    constructor
    · rintro ⟨post, h⟩
      exact ⟨[], post, h⟩
    · rintro ⟨pre, post, h⟩
      have h1 := congrArg List.length h
      simp only [List.length_nil, List.length_append] at h1
      have hq : q = [] := List.length_eq_zero.mp (by omega)
      exact ⟨[], by rw [hq]; rfl⟩
  | c :: s, q => by
    simp only [includes, Bool.or_eq_true, startsWith_iff, includes_iff s q]
    constructor
    · rintro (⟨post, h⟩ | ⟨pre, post, h⟩)
      · exact ⟨[], post, h⟩
      · exact ⟨c :: pre, post, by rw [h]; rfl⟩
    · rintro ⟨pre, post, h⟩
      cases pre with
      | nil => exact Or.inl ⟨post, h⟩
      | cons d pre =>
        simp only [List.cons_append, List.cons.injEq] at h
        exact Or.inr ⟨pre, post, h.2⟩

/-- C13: in Composing, the candidates `updateDropdownForCurrentTag` passes to
the suggestion list are the first 20 elements, in the order of the store list
`L`, of the elements of `L` that contain the buffer as a substring when both are
lower-cased: at most 20, each a member of `L`, in the order of `L`; the list is
shown with them, the first highlighted, and hidden when there is none. -/
theorem updateDropdown_candidates (P : Platform) (s : State) (editor : Nat)
    (hcomp : s.isTagMode = true) :
    ∃ p : Str → Bool,
      (∀ t, p t = true ↔
        ∃ pre post, P.toLowerCase t = pre ++ P.toLowerCase s.currentTagText ++ post) ∧
      (((loadTags s.storage).filter p).take 20 ≠ [] →
        (updateDropdownForCurrentTag P s editor).dd =
          some { shown := true, children := ((loadTags s.storage).filter p).take 20 } ∧
        (updateDropdownForCurrentTag P s editor).activeDropdownIndex = 0 ∧
        (updateDropdownForCurrentTag P s editor).dropdownSelectCallback = some editor) ∧
      (((loadTags s.storage).filter p).take 20 = [] →
        dropdownVisible (updateDropdownForCurrentTag P s editor) = false) ∧
      (((loadTags s.storage).filter p).take 20).length ≤ 20 ∧
      List.Sublist (((loadTags s.storage).filter p).take 20) (loadTags s.storage) ∧
      (∀ t ∈ ((loadTags s.storage).filter p).take 20, t ∈ loadTags s.storage) := by
  refine ⟨fun t => includes (P.toLowerCase t) (P.toLowerCase s.currentTagText),
    fun t => includes_iff _ _, ?_, ?_, ?_, ?_, ?_⟩
  · intro hne
    unfold updateDropdownForCurrentTag
    have he : (((loadTags s.storage).filter
        (fun t => includes (P.toLowerCase t) (P.toLowerCase s.currentTagText))).take 20).isEmpty
        = false := by
      cases hc : ((loadTags s.storage).filter
        (fun t => includes (P.toLowerCase t) (P.toLowerCase s.currentTagText))).take 20 with
      | nil => exact absurd hc hne
      | cons x xs => rfl
    simp only [hcomp, Bool.not_true, Bool.false_eq_true, if_false, he]
    exact showDropdown_nonempty s _ editor hne
  · intro he
    unfold updateDropdownForCurrentTag
    simp only [hcomp, Bool.not_true, Bool.false_eq_true, if_false, he, List.isEmpty_nil, if_true]
    exact dropdownVisible_hideDropdown s
  · rw [List.length_take]
    exact Nat.min_le_left _ _
  · exact (List.take_sublist _ _).trans (List.filter_sublist _)
  · intro t ht
    exact (List.mem_filter.mp (List.mem_of_mem_take ht)).1

/-- C13, witness: the store `Yak`, `xenon`, `xray` and the buffer `X`; the list
is shown with `xenon` and `xray`. -/
theorem updateDropdown_candidates_witness :
    (updateDropdownForCurrentTag demoPlatform demoStore 0).dd =
      some { shown := true, children := ["xenon".toList, "xray".toList] } ∧
    ∃ p : Str → Bool,
      (∀ t, p t = true ↔
        ∃ pre post, demoPlatform.toLowerCase t =
          pre ++ demoPlatform.toLowerCase demoStore.currentTagText ++ post) ∧
      (((loadTags demoStore.storage).filter p).take 20 ≠ [] →
        (updateDropdownForCurrentTag demoPlatform demoStore 0).dd =
          some { shown := true, children := ((loadTags demoStore.storage).filter p).take 20 } ∧
        (updateDropdownForCurrentTag demoPlatform demoStore 0).activeDropdownIndex = 0 ∧
        (updateDropdownForCurrentTag demoPlatform demoStore 0).dropdownSelectCallback = some 0) ∧
      (((loadTags demoStore.storage).filter p).take 20 = [] →
        dropdownVisible (updateDropdownForCurrentTag demoPlatform demoStore 0) = false) ∧
      (((loadTags demoStore.storage).filter p).take 20).length ≤ 20 ∧
      List.Sublist (((loadTags demoStore.storage).filter p).take 20)
        (loadTags demoStore.storage) ∧
      (∀ t ∈ ((loadTags demoStore.storage).filter p).take 20, t ∈ loadTags demoStore.storage) :=
  ⟨by decide, updateDropdown_candidates demoPlatform demoStore 0 rfl⟩

/-! ## Fallback insertion -/

theorem dispatches_default (s : State) (root : Nat) (data inputType : Str) :
    ∃ rest, dispatches s root data inputType [] =
      ({ target := root, phase := Phase.beforeinput, inputType := inputType, data := data,
         seen := s.surfaces[root]? }, !(s.cancels.contains (Phase.beforeinput, root))) ::
      ({ target := root, phase := Phase.input, inputType := inputType, data := data,
         seen := s.surfaces[root]? }, !(s.cancels.contains (Phase.input, root))) :: rest := by
  unfold dispatches
  cases s.activeElement with
  | none => exact ⟨[], by simp⟩
  | some el =>
    by_cases h : el = root
    · exact ⟨[], by simp [h]⟩
    · exact ⟨_, by simp [h]; rfl⟩

theorem flatten_insertNodeAt (nodes : List Str) (gap : Nat) (ins : Str) :
    (insertNodeAt nodes gap ins).flatten =
      nodes.flatten.take (charsBefore nodes gap) ++ ins ++
        nodes.flatten.drop (charsBefore nodes gap) := by
  have hsplit : nodes.flatten = (nodes.take gap).flatten ++ (nodes.drop gap).flatten := by
    rw [← List.flatten_append, List.take_append_drop]
  unfold insertNodeAt charsBefore
  rw [List.flatten_append, List.flatten_append]
  conv_rhs => rw [hsplit, List.take_left, List.drop_left]
  simp

theorem applyTagSelection_fallback_eq (s : State) (editor : Nat) (nodes : List Str) (gap : Nat)
    (tag : Str)
    (hsurf : s.surfaces[editor]? = some (Surface.structured nodes))
    (hsel : s.selection = some (editor, Caret.element gap Adjacent.none)) :
    applyTagSelection s editor tag =
      resetTagState { s with
        surfaces := s.surfaces.set editor
          (Surface.structured (insertNodeAt nodes gap ('#' :: tag ++ [' ']))),
        selection := some (editor, Caret.element (gap + 1) Adjacent.before),
        storage := addTag s.storage tag,
        events := s.events ++ (dispatches { s with
            surfaces := s.surfaces.set editor
              (Surface.structured (insertNodeAt nodes gap ('#' :: tag ++ [' ']))) }
          editor ('#' :: tag ++ [' ']) "insertText".toList []).map Prod.fst } := by
  unfold applyTagSelection
  simp only [hsurf, hsel, caretContainer, notify_fst, modifyNodes_eq _ _ _ _ hsurf]
  rfl

/-- C14: when the caret container is an element and no text node is found next
to it, `applyTagSelection` inserts `"#" ++ tag ++ " "` at the caret and deletes
nothing (the text before and after the caret is kept), calls `addTag(tag)`, so
that a non-blank tag is in the store, dispatches the `beforeinput` and `input`
notifications at the surface after the insertion, and ends in Idle. -/
theorem applyTagSelection_fallback (s : State) (editor : Nat) (nodes : List Str) (gap : Nat)
    (tag : Str)
    (hsurf : s.surfaces[editor]? = some (Surface.structured nodes))
    (hsel : s.selection = some (editor, Caret.element gap Adjacent.none)) :
    ∃ nodes' : List Str,
      (applyTagSelection s editor tag).surfaces[editor]? = some (Surface.structured nodes') ∧
      nodes'.flatten = nodes.flatten.take (charsBefore nodes gap) ++ ('#' :: tag ++ [' ']) ++
        nodes.flatten.drop (charsBefore nodes gap) ∧
      (applyTagSelection s editor tag).storage = addTag s.storage tag ∧
      (trim tag ≠ [] → trim tag ∈ loadTags (applyTagSelection s editor tag).storage) ∧
      ({ target := editor, phase := Phase.beforeinput, inputType := "insertText".toList,
         data := '#' :: tag ++ [' '], seen := some (Surface.structured nodes') } : Dispatched) ∈
        (applyTagSelection s editor tag).events.drop s.events.length ∧
      ({ target := editor, phase := Phase.input, inputType := "insertText".toList,
         data := '#' :: tag ++ [' '], seen := some (Surface.structured nodes') } : Dispatched) ∈
        (applyTagSelection s editor tag).events.drop s.events.length ∧
      (applyTagSelection s editor tag).isTagMode = false ∧
      (applyTagSelection s editor tag).currentTagText = [] := by
  rw [applyTagSelection_fallback_eq s editor nodes gap tag hsurf hsel]
  have hg := getElem?_set_of_getElem? s.surfaces editor _
    (Surface.structured (insertNodeAt nodes gap ('#' :: tag ++ [' ']))) hsurf
  generalize hs1 : ({ s with
    surfaces := s.surfaces.set editor
      (Surface.structured (insertNodeAt nodes gap ('#' :: tag ++ [' ']))) } : State) = s1
  have hs1s : s1.surfaces = s.surfaces.set editor
      (Surface.structured (insertNodeAt nodes gap ('#' :: tag ++ [' ']))) := by rw [← hs1]
  obtain ⟨rest, hrest⟩ := dispatches_default s1 editor ('#' :: tag ++ [' ']) "insertText".toList
  refine ⟨insertNodeAt nodes gap ('#' :: tag ++ [' ']), ?_, flatten_insertNodeAt _ _ _, rfl, ?_,
    ?_, ?_, rfl, rfl⟩
  · rw [resetTagState_surfaces]
    exact hg
  · intro ht
    rw [resetTagState_storage]
    exact (mem_addTag s.storage tag (trim tag)).mpr (Or.inr ⟨rfl, ht⟩)
  · rw [resetTagState_events]
    simp only [List.drop_left]
    rw [hrest, List.map_cons, hs1s, hg]
    exact List.mem_cons_self _ _
  · rw [resetTagState_events]
    simp only [List.drop_left]
    rw [hrest, List.map_cons, List.map_cons, hs1s, hg]
    exact List.mem_cons_of_mem _ (List.mem_cons_self _ _)

/-- C14, witness: the caret between the text nodes `ab` and `cd`, the tag `x`. -/
theorem applyTagSelection_fallback_witness :
    (applyTagSelection demoFallback 0 "x".toList).surfaces =
      [Surface.structured ["ab".toList, "#x ".toList, "cd".toList]] ∧
    ∃ nodes' : List Str,
      (applyTagSelection demoFallback 0 "x".toList).surfaces[0]? =
        some (Surface.structured nodes') ∧
      nodes'.flatten = "ab#x cd".toList ∧
      (applyTagSelection demoFallback 0 "x".toList).storage = ["x".toList] ∧
      (trim "x".toList ≠ [] →
        trim "x".toList ∈ loadTags (applyTagSelection demoFallback 0 "x".toList).storage) ∧
      ({ target := 0, phase := Phase.beforeinput, inputType := "insertText".toList,
         data := "#x ".toList, seen := some (Surface.structured nodes') } : Dispatched) ∈
        (applyTagSelection demoFallback 0 "x".toList).events.drop 0 ∧
      ({ target := 0, phase := Phase.input, inputType := "insertText".toList,
         data := "#x ".toList, seen := some (Surface.structured nodes') } : Dispatched) ∈
        (applyTagSelection demoFallback 0 "x".toList).events.drop 0 ∧
      (applyTagSelection demoFallback 0 "x".toList).isTagMode = false ∧
      (applyTagSelection demoFallback 0 "x".toList).currentTagText = [] :=
  ⟨by decide, applyTagSelection_fallback demoFallback 0 ["ab".toList, "cd".toList] 1 "x".toList
    rfl rfl⟩

/-! ## The highlighted index -/

theorem applyTagSelection_index (s : State) (editor : Nat) (tag : Str) :
    applyTagSelection s editor tag = s ∨
      (applyTagSelection s editor tag).activeDropdownIndex = -1 := by
  unfold applyTagSelection
  cases hs : s.surfaces[editor]? with
  | none => exact Or.inl rfl
  | some surf =>
    cases surf with
    | flat v a b =>
      cases hst : s.tagStartOffset with
      | none => exact Or.inl rfl
      | some st => exact Or.inr rfl
    | structured nodes =>
      cases hsel : s.selection with
      | none => exact Or.inr rfl
      | some hc =>
        obtain ⟨host, caret⟩ := hc
        simp only
        cases hcc : caretContainer (nodesOf s.surfaces host) caret with
        | none => exact Or.inr rfl
        | some co =>
          simp only
          split <;> exact Or.inr rfl

theorem highlightValid_of_neg (s : State) (h : s.activeDropdownIndex = -1) : HighlightValid s :=
  Or.inl h

theorem highlightValid_showDropdown (s : State) (items : List Str) (editor : Nat) :
    HighlightValid (showDropdown s items editor) := by
  cases items with
  | nil => exact Or.inl rfl
  | cons x xs =>
    obtain ⟨h1, h2, _⟩ := showDropdown_nonempty s (x :: xs) editor (by simp)
    refine Or.inr ?_
    unfold entryCount
    rw [h1, h2]
    simp

theorem highlightValid_setActive (s : State) (i : Nat) (h : HighlightValid s)
    (hi : i < entryCount s) : HighlightValid (setActiveDropdownIndex s (i : Int)) := by
  unfold setActiveDropdownIndex
  cases hdd : s.dd with
  | none => exact h
  | some d =>
    simp only
    split
    · exact h
    · refine Or.inr ⟨by simp, ?_⟩
      have hcount : entryCount s = d.children.length := by unfold entryCount; rw [hdd]
      rw [hcount] at hi
      show (i : Int) < ((entryCount _ : Nat) : Int)
      unfold entryCount
      simp only
      exact_mod_cast hi

theorem highlightValid_move (s : State) (delta : Int) (hd : -1 ≤ delta)
    (h : HighlightValid s) : HighlightValid (moveDropdownSelection s delta) := by
  unfold moveDropdownSelection
  cases hdd : s.dd with
  | none => exact h
  | some d =>
    simp only
    have hcount : entryCount s = d.children.length := by unfold entryCount; rw [hdd]
    cases hc : d.children with
    | nil => simpa using h
    | cons x xs =>
      simp only [List.isEmpty_cons, Bool.false_eq_true, if_false]
      have hlen : 0 < (x :: xs).length := by simp
      by_cases hneg : s.activeDropdownIndex < 0
      · rw [if_pos hneg]
        exact highlightValid_setActive s 0 h (by rw [hcount, hc]; exact hlen)
      · rw [if_neg hneg]
        have hnn : 0 ≤ s.activeDropdownIndex + delta + ((x :: xs).length : Int) := by
          have : (1 : Int) ≤ ((x :: xs).length : Int) := by exact_mod_cast hlen
          omega
        have hpos : (0 : Int) < ((x :: xs).length : Int) := by exact_mod_cast hlen
        rw [Int.tmod_eq_emod hnn (le_of_lt hpos)]
        have h1 := Int.emod_nonneg (s.activeDropdownIndex + delta + ((x :: xs).length : Int))
          (ne_of_gt hpos)
        have h2 := Int.emod_lt_of_pos (s.activeDropdownIndex + delta + ((x :: xs).length : Int))
          hpos
        obtain ⟨k, hk⟩ := Int.eq_ofNat_of_zero_le h1
        rw [hk]
        apply highlightValid_setActive s k h
        rw [hcount, hc]
        rw [hk] at h2
        exact_mod_cast h2

theorem highlightValid_hover (s : State) (idx : Nat) (h : HighlightValid s) :
    HighlightValid (hoverEntry s idx) := by
  unfold hoverEntry
  cases hdd : s.dd with
  | none => exact h
  | some d =>
    simp only
    by_cases hi : idx < d.children.length
    · rw [if_pos hi]
      exact highlightValid_setActive s idx h (by unfold entryCount; rw [hdd]; exact hi)
    · rw [if_neg hi]
      exact h

theorem highlightValid_pick (s : State) (h : HighlightValid s) :
    HighlightValid (pickDropdownSelection s) := by
  unfold pickDropdownSelection
  cases pickedTag s with
  | none => exact h
  | some et =>
    obtain ⟨editor, tag⟩ := et
    simp only
    rcases applyTagSelection_index s editor tag with he | hi
    · rw [he]; exact h
    · exact Or.inl hi

theorem highlightValid_applyListOp (s : State) (op : ListOp) (h : HighlightValid s) :
    HighlightValid (applyListOp s op) := by
  cases op with
  | showItems items editor => exact highlightValid_showDropdown s items editor
  | hide => exact Or.inl rfl
  | move down =>
    cases down
    · exact highlightValid_move s (-1) (le_refl _) h
    · exact highlightValid_move s 1 (by omega) h
  | hover idx => exact highlightValid_hover s idx h
  | accept => exact highlightValid_pick s h

theorem highlightValid_runListOps (ops : List ListOp) :
    ∀ s : State, HighlightValid s → HighlightValid (runListOps s ops) := by
  induction ops with
  | nil => intro s h; exact h
  | cons op ops ih =>
    intro s h
    exact ih _ (highlightValid_applyListOp s op h)

/-- C15: in every state reached from an initial state (index `-1`, no list
element) by `show`, `hide`, `moveHighlight(+1)`, `moveHighlight(-1)`, pointer
hover over an existing entry and `acceptHighlighted`, the highlighted index is
`-1` or a valid index into the current entries; after `show` with a non-empty
list it is `0`, after `hide` or `show` with an empty list it is `-1`. -/
theorem highlight_index_valid (s0 : State) (ops : List ListOp)
    (hdd : s0.dd = none) (hidx : s0.activeDropdownIndex = -1) :
    HighlightValid (runListOps s0 ops) ∧
    (∀ (s : State) (items : List Str) (editor : Nat), items ≠ [] →
      (showDropdown s items editor).activeDropdownIndex = 0 ∧
      entryCount (showDropdown s items editor) = items.length) ∧
    (∀ (s : State) (editor : Nat), (showDropdown s [] editor).activeDropdownIndex = -1) ∧
    (∀ s : State, (hideDropdown s).activeDropdownIndex = -1) := by
  have _ := hdd
  refine ⟨highlightValid_runListOps ops s0 (Or.inl hidx), ?_, fun _ _ => rfl, fun _ => rfl⟩
  intro s items editor hne
  obtain ⟨h1, h2, _⟩ := showDropdown_nonempty s items editor hne
  refine ⟨h2, ?_⟩
  unfold entryCount
  rw [h1]

/-- C15, witness: on the freshly loaded page the list is shown with `xray` and
`xenon`, the highlight moves up from the first entry, the pointer enters the
first entry, and the highlighted entry is accepted. -/
theorem highlight_index_valid_witness :
    (runListOps demoEmpty [ListOp.showItems ["xray".toList, "xenon".toList] 0,
      ListOp.move false]).activeDropdownIndex = 1 ∧
    HighlightValid (runListOps demoEmpty [ListOp.showItems ["xray".toList, "xenon".toList] 0,
      ListOp.move false, ListOp.hover 0, ListOp.move true, ListOp.accept]) :=
  ⟨by decide, (highlight_index_valid demoEmpty
    [ListOp.showItems ["xray".toList, "xenon".toList] 0, ListOp.move false, ListOp.hover 0,
      ListOp.move true, ListOp.accept] rfl rfl).1⟩

/-! ## What the handler does to the event -/

theorem handled_terminator_aux (s : State) (e : KeyEvent) (editor : Nat) (r : State × Handled)
    (hr : handleKeydown s e = r)
    (hfresh : e.tmTagHandler = false) (hcomp : s.isTagMode = true)
    (hed : getActiveEditor s = some editor) (hterm : isTerminator e = true)
    (hhash : e.key ≠ ['#']) (hesc : e.key ≠ "Escape".toList) :
    r.2 = Handled.consumed := by
  have hesc' : (e.key == "Escape".toList) = false := by simpa using hesc
  have hhash' : (e.key == ['#']) = false := by simpa using hhash
  have hterm' : (isEnterLike e || isSpaceLike e || isTabLike e || isPunctuation e) = true := hterm
  have c1 : ¬ (e.tmTagHandler = true) := by simp [hfresh]
  have c2 : ¬ ((s.managerVisible && e.key == "Escape".toList) = true) := by
    rw [hesc', Bool.and_false]; simp
  have c5 : ¬ ((dropdownVisible s && e.key == "Escape".toList) = true) := by
    rw [hesc', Bool.and_false]; simp
  have c6 : ¬ ((e.key == ['#']) = true) := by simp [hhash']
  have c7 : ¬ ((!s.isTagMode) = true) := by simp [hcomp]
  unfold handleKeydown at hr
  rw [if_neg c1, if_neg c2] at hr
  by_cases h3 : (dropdownVisible s && (isDownKey e || isUpKey e)) = true
  · rw [if_pos h3] at hr; subst hr; rfl
  rw [if_neg h3] at hr
  by_cases h4 : (dropdownVisible s && (isEnterLike e || isTabLike e || isSpaceLike e)) = true
  · rw [if_pos h4] at hr; subst hr; rfl
  rw [if_neg h4, if_neg c5, hed] at hr
  simp only at hr
  rw [if_neg c6, if_neg c7, if_pos hterm'] at hr
  by_cases h9 : (trim s.currentTagText).length > 0
  · rw [if_pos h9] at hr
    by_cases h10 : (isSpaceLike e && !dropdownVisible s) = true
    · rw [if_pos h10] at hr; subst hr; rfl
    · rw [if_neg h10] at hr; subst hr; rfl
  · rw [if_neg h9] at hr; subst hr; rfl

theorem handled_hash (s : State) (e : KeyEvent) (editor : Nat)
    (hfresh : e.tmTagHandler = false) (hkey : e.key = ['#'])
    (hvis : dropdownVisible s = false) (hed : getActiveEditor s = some editor) :
    (handleKeydown s e).2 = Handled.passed ∧ (handleKeydown s e).1.isTagMode = true ∧
    (handleKeydown s e).1.currentTagText = [] := by
  have hesc : (e.key == "Escape".toList) = false := by rw [hkey]; decide
  have hhash : (e.key == ['#']) = true := by rw [hkey]; decide
  unfold handleKeydown
  simp only [hfresh, hvis, hesc, hhash, hed, Bool.and_false, Bool.false_and, Bool.false_eq_true,
    if_false, if_true]
  exact ⟨trivial, trivial, trivial⟩

theorem handled_backspace (s : State) (e : KeyEvent) (editor : Nat)
    (hfresh : e.tmTagHandler = false) (hkey : e.key = "Backspace".toList)
    (hcode : isPlainCode e.keyCode = true)
    (hcomp : s.isTagMode = true) (hed : getActiveEditor s = some editor) :
    (handleKeydown s e).2 = Handled.passed ∧
    (handleKeydown s e).1.currentTagText = s.currentTagText.dropLast := by
  unfold isPlainCode at hcode
  simp only [Bool.and_eq_true, bne_iff_ne, ne_eq] at hcode
  have hdown : isDownKey e = false := by
    unfold isDownKey; rw [hkey]; simp [hcode]
  have hup : isUpKey e = false := by
    unfold isUpKey; rw [hkey]; simp [hcode]
  have henter : isEnterLike e = false := by
    unfold isEnterLike; rw [hkey]; simp [hcode]
  have hspace : isSpaceLike e = false := by
    unfold isSpaceLike; rw [hkey]; simp [hcode]
  have htab : isTabLike e = false := by
    unfold isTabLike; rw [hkey]; simp [hcode]
  have hpunct : isPunctuation e = false := by
    unfold isPunctuation; rw [hkey]; decide
  have hesc : (e.key == "Escape".toList) = false := by rw [hkey]; decide
  have hhash : (e.key == ['#']) = false := by rw [hkey]; decide
  have hback : (e.key == "Backspace".toList) = true := by rw [hkey]; decide
  unfold handleKeydown
  simp only [hfresh, hdown, hup, henter, hspace, htab, hpunct, hesc, hhash, hback, hcomp, hed,
    Bool.or_self, Bool.and_false, Bool.false_eq_true, Bool.not_true, if_false, if_true]
  by_cases hl : s.currentTagText.length > 0
  · rw [if_pos hl]
    exact ⟨rfl, rfl⟩
  · rw [if_neg hl]
    have : s.currentTagText = [] := List.length_eq_zero.mp (by omega)
    exact ⟨rfl, by rw [resetTagState_currentTagText, this]; rfl⟩

/-- C16, as amended: with an active editor, every terminator keystroke handled
in Composing is prevented and stopped, so the host surface does not receive the
raw terminator; the trigger `#`, a character of one UTF-16 code unit appended
to the buffer and the deletion key change the machine and are left to the host
surface, neither prevented nor stopped. -/
theorem terminators_intercepted (s : State) (e : KeyEvent) (editor : Nat)
    (hfresh : e.tmTagHandler = false) (hed : getActiveEditor s = some editor) :
    (s.isTagMode = true → isTerminator e = true → e.key ≠ ['#'] → e.key ≠ "Escape".toList →
      (handleKeydown s e).2 = Handled.consumed) ∧
    (e.key = ['#'] → dropdownVisible s = false →
      (handleKeydown s e).2 = Handled.passed ∧ (handleKeydown s e).1.isTagMode = true ∧
      (handleKeydown s e).1.currentTagText = []) ∧
    (∀ (ch : Char) (code : Nat), s.isTagMode = true → isTagChar ch = true →
      isPlainCode code = true →
      (handleKeydown s (charKey ch code)).2 = Handled.passed ∧
      (handleKeydown s (charKey ch code)).1.currentTagText = s.currentTagText ++ [ch]) ∧
    (e.key = "Backspace".toList → isPlainCode e.keyCode = true → s.isTagMode = true →
      (handleKeydown s e).2 = Handled.passed ∧
      (handleKeydown s e).1.currentTagText = s.currentTagText.dropLast) := by
  refine ⟨?_, ?_, ?_, ?_⟩
  · intro hcomp hterm hhash hesc
    exact handled_terminator_aux s e editor _ rfl hfresh hcomp hed hterm hhash hesc
  · intro hkey hvis
    exact handled_hash s e editor hfresh hkey hvis hed
  · intro ch code hcomp hch hcode
    rw [handleKeydown_char s ch code editor hcomp hed hch hcode]
    exact ⟨rfl, rfl⟩
  · intro hkey hcode hcomp
    exact handled_backspace s e editor hfresh hkey hcode hcomp hed

/-- C16, witness: while `wo` is composed after `say `, a full stop is
prevented and stopped. -/
theorem terminators_intercepted_witness :
    (handleKeydown demoFlat (charKey '.' 190)).2 = Handled.consumed :=
  (terminators_intercepted demoFlat (charKey '.' 190) 0 rfl rfl).1 rfl (by decide) (by decide)
    (by decide)

/-- C16, counterexample: the trigger `#` starts Composing, the character `r`
is appended to the buffer `wo` and the deletion key removes its last
character, and none of the three keystrokes is prevented or stopped. -/
theorem trigger_not_intercepted :
    (handleKeydown demoEmpty (charKey '#' 51)).1.isTagMode = true ∧
    (handleKeydown demoEmpty (charKey '#' 51)).2 = Handled.passed ∧
    (handleKeydown demoFlat (charKey 'r' 82)).1.currentTagText = "wor".toList ∧
    (handleKeydown demoFlat (charKey 'r' 82)).2 = Handled.passed ∧
    (handleKeydown demoFlat (namedKey "Backspace".toList 8)).1.currentTagText = "w".toList ∧
    (handleKeydown demoFlat (namedKey "Backspace".toList 8)).2 = Handled.passed := by
  decide

/-! ## Too little text before the caret -/

theorem charsBefore_succ_any (nodes : List Str) (i : Nat) :
    charsBefore nodes (i + 1) = charsBefore nodes i + (nodes.getD i []).length := by
  by_cases h : i < nodes.length
  · exact charsBefore_succ nodes i h
  · have h1 : nodes.take (i + 1) = nodes := List.take_of_length_le (by omega)
    have h2 : nodes.take i = nodes := List.take_of_length_le (by omega)
    have h3 : nodes.getD i [] = [] := by
      simp [List.getD, List.getElem?_eq_none (show nodes.length ≤ i by omega)]
    unfold charsBefore
    rw [h1, h2, h3]
    rfl

theorem backwardWalk_short (nodes : List Str) (idx offset : Nat) (start : Nat × Nat) :
    ∀ (i r : Nat), i < idx → charsBefore nodes (i + 1) < r →
      backwardWalk nodes idx offset i r start = start := by
  intro i
  induction i with
  | zero =>
    intro r hi hlt
    rw [charsBefore_succ_any] at hlt
    unfold backwardWalk
    have hr : r ≠ 0 := by omega
    have hne : ¬ (0 = idx) := by omega
    have hge : ¬ ((nodes.getD 0 []).length ≥ r) := by omega
    simp only [hr, hne, hge, if_false]
  | succ j ih =>
    intro r hi hlt
    rw [charsBefore_succ_any] at hlt
    unfold backwardWalk
    have hr : r ≠ 0 := by omega
    have hne : ¬ (j + 1 = idx) := by omega
    have hge : ¬ ((nodes.getD (j + 1) []).length ≥ r) := by omega
    simp only [hr, hne, hge, if_false]
    exact ih (r - (nodes.getD (j + 1) []).length) (by omega) (by omega)

theorem resolveStart_short (nodes : List Str) (idx offset r : Nat)
    (h : charsBefore nodes idx + offset < r) : resolveStart nodes idx offset r = (idx, offset) := by
  unfold resolveStart
  have hr : r ≠ 0 := by omega
  have hge : ¬ (offset ≥ r) := by omega
  cases idx with
  | zero =>
    unfold backwardWalk
    simp only [hr, hge, if_false, if_true]
  | succ j =>
    unfold backwardWalk
    simp only [hr, hge, if_false, if_true]
    exact backwardWalk_short nodes (j + 1) offset (j + 1, offset) j (r - offset) (by omega)
      (by omega)

theorem applyTagSelection_text_surfaces (s : State) (editor host : Nat) (nodes : List Str)
    (c o : Nat) (tag : Str)
    (hsurf : s.surfaces[editor]? = some (Surface.structured nodes))
    (hsel : s.selection = some (host, Caret.text c o))
    (hveto : vetoes s editor = false) :
    (applyTagSelection s editor tag).surfaces =
      modifyNodes s.surfaces host (fun ns => replaceNodes ns
        (if (host == editor && decide (c < nodes.length)) = true then
          resolveStart nodes c o (s.currentTagText.length + 1) else (c, o)).1
        (if (host == editor && decide (c < nodes.length)) = true then
          resolveStart nodes c o (s.currentTagText.length + 1) else (c, o)).2
        c o ('#' :: tag ++ [' '])) := by
  unfold applyTagSelection
  simp only [hsurf, hsel, caretContainer, prevented_eq_vetoes]
  have hv : vetoes { s with selection := some (host, Caret.text c o) } editor = false := hveto
  simp only [hv, Bool.false_eq_true, if_false]
  rfl

/-- C17: when fewer than `len(b) + 1` code units precede the caret in document
order, the backward walk leaves the start boundary at the caret; and when that
is so, or the caret's text node is not under the editor and so not enumerated,
the replacement, if not vetoed, deletes nothing: the text before and after the
caret is kept around the inserted text. -/
theorem resolveStart_too_little (s : State) (editor host : Nat) (nodes hostNodes : List Str)
    (idx offset : Nat) (tag : Str)
    (hsurf : s.surfaces[editor]? = some (Surface.structured nodes))
    (hhost : s.surfaces[host]? = some (Surface.structured hostNodes))
    (hsel : s.selection = some (host, Caret.text idx offset))
    (hidx : idx < hostNodes.length) (hoff : offset ≤ (hostNodes.getD idx []).length)
    (hveto : vetoes s editor = false)
    (hcase : (host = editor ∧ charsBefore nodes idx + offset < s.currentTagText.length + 1) ∨
      host ≠ editor) :
    (∀ (frags : List Str) (i o : Nat) (b : Str), charsBefore frags i + o < b.length + 1 →
      resolveStart frags i o (b.length + 1) = (i, o)) ∧
    (applyTagSelection s editor tag).surfaces[host]? =
      some (Surface.structured
        (replaceNodes hostNodes idx offset idx offset ('#' :: tag ++ [' ']))) ∧
    (replaceNodes hostNodes idx offset idx offset ('#' :: tag ++ [' '])).flatten =
      hostNodes.flatten.take (charsBefore hostNodes idx + offset) ++ ('#' :: tag ++ [' ']) ++
        hostNodes.flatten.drop (charsBefore hostNodes idx + offset) := by
  refine ⟨fun frags i o b h => resolveStart_short frags i o _ h, ?_,
    flatten_replaceNodes hostNodes idx offset idx offset _ hidx hoff hidx hoff⟩
  rw [applyTagSelection_text_surfaces s editor host nodes idx offset tag hsurf hsel hveto,
    modifyNodes_eq _ _ _ _ hhost, getElem?_set_of_getElem? _ _ _ _ hhost]
  have hstart : (if (host == editor && decide (idx < nodes.length)) = true then
      resolveStart nodes idx offset (s.currentTagText.length + 1) else (idx, offset)) =
      (idx, offset) := by
    rcases hcase with ⟨_, hshort⟩ | hne
    · rw [resolveStart_short nodes idx offset _ hshort]
      split <;> rfl
    · have : (host == editor) = false := by simpa using hne
      rw [this]
      rfl
  rw [hstart]

/-- C17, witness: the single text node `a` with the buffer `ab`: one code unit
precedes the caret where three are looked for. -/
theorem resolveStart_too_little_witness :
    resolveStart ["a".toList] 0 1 3 = (0, 1) ∧
    (applyTagSelection demoShort 0 "ab".toList).surfaces[0]? =
      some (Surface.structured ["a".toList, "#ab ".toList, []]) :=
  have h := resolveStart_too_little demoShort 0 0 ["a".toList] ["a".toList] 0 1 "ab".toList
    rfl rfl rfl (by decide) (by decide) (by decide) (Or.inl ⟨rfl, by decide⟩)
  ⟨h.1 ["a".toList] 0 1 "ab".toList (by decide), h.2.1⟩

/-! ## Stores written by the script -/

theorem ne_nil_of_mem_importEntries (P : Platform) (str y : Str)
    (h : y ∈ importEntries P str) : y ≠ [] := by
  unfold importEntries at h
  split at h
  · cases h
  · simp only at h
    split at h
    · cases h
    · have := (List.mem_filter.mp h).2
      intro hy
      rw [hy] at this
      cases this

theorem nil_not_mem_applyOp (P : Platform) (storage : List Str) (op : StoreOp)
    (h : [] ∉ storage) : [] ∉ applyOp P storage op := by
  cases op with
  | add tag =>
    intro hm
    rcases (mem_addTag storage tag []).mp hm with h1 | ⟨h1, h2⟩
    · exact h h1
    · exact h2 h1.symm
  | remove tag =>
    intro hm
    have := (mem_saveTags [] _).mp hm
    exact h (List.mem_filter.mp this).1
  | importFrom str =>
    intro hm
    rcases (mem_importTagsFromString P storage str []).mp hm with h1 | h1
    · exact h h1
    · exact ne_nil_of_mem_importEntries P str [] h1 rfl

theorem nil_not_mem_runOps (P : Platform) (ops : List StoreOp) :
    ∀ storage : List Str, [] ∉ storage → [] ∉ runOps P storage ops := by
  induction ops with
  | nil => intro storage h; exact h
  | cons op ops ih =>
    intro storage h
    exact ih _ (nil_not_mem_applyOp P storage op h)

/-- C5: for every non-empty list `items` of `n` candidates taken from a store
the script has written, after `show(items, anchor, onSelect)` and `k` calls of
`moveHighlight(+1)` the highlighted index is `k mod n` and `acceptHighlighted`
calls `onSelect` with `items[k mod n]`; the move is cyclic: one more step from
index `n - 1` gives `0`, and `moveHighlight(-1)` from index `0` gives `n - 1`. -/
theorem dropdown_navigation (P : Platform) (ops : List StoreOp) (s : State) (items : List Str)
    (ed k : Nat) (h : items ≠ [])
    (hitems : ∀ t ∈ items, t ∈ loadTags (runOps P [] ops)) :
    (moveMany 1 k (showDropdown s items ed)).activeDropdownIndex =
      ((k % items.length : Nat) : Int) ∧
    pickedTag (moveMany 1 k (showDropdown s items ed)) =
      some (ed, items.getD (k % items.length) []) ∧
    (moveMany 1 (items.length - 1) (showDropdown s items ed)).activeDropdownIndex =
      ((items.length - 1 : Nat) : Int) ∧
    (moveDropdownSelection (moveMany 1 (items.length - 1) (showDropdown s items ed))
      1).activeDropdownIndex = 0 ∧
    (moveDropdownSelection (showDropdown s items ed) (-1)).activeDropdownIndex =
      ((items.length - 1 : Nat) : Int) := by
  have hpos : 0 < items.length := List.length_pos.mpr h
  obtain ⟨h1, h2, h3⟩ := moveMany_down s items ed h k
  obtain ⟨l1, l2, l3⟩ := moveMany_down s items ed h (items.length - 1)
  obtain ⟨n1, n2, n3⟩ := moveMany_down s items ed h (items.length - 1 + 1)
  obtain ⟨z1, z2, z3⟩ := moveMany_down s items ed h 0
  have hlt : k % items.length < items.length := Nat.mod_lt _ hpos
  have hentry : (items.getD (k % items.length) []).isEmpty = false := by
    have hg : items.getD (k % items.length) [] = items[k % items.length] := by
      simp [List.getD, List.getElem?_eq_getElem hlt]
    have hm : items[k % items.length] ∈ loadTags (runOps P [] ops) :=
      hitems _ (List.getElem_mem _)
    have hne : items[k % items.length] ≠ [] := by
      intro he
      rw [he] at hm
      exact nil_not_mem_runOps P ops [] (List.not_mem_nil _) hm
    rw [hg]
    cases hc : items[k % items.length] with
    | nil => exact absurd hc hne
    | cons x xs => rfl
  refine ⟨h3, ?_, ?_, ?_, ?_⟩
  · rw [pickedTag_of _ items ed _ h1 h2 h3 hlt, hentry]
    rfl
  · rw [l3, Nat.mod_eq_of_lt (by omega)]
  · have hn : (items.length - 1 + 1) % items.length = 0 := by
      rw [Nat.sub_add_cancel hpos, Nat.mod_self]
    have n3' : (moveDropdownSelection (moveMany 1 (items.length - 1) (showDropdown s items ed))
        1).activeDropdownIndex = (((items.length - 1 + 1) % items.length : Nat) : Int) := n3
    rw [n3', hn]
    rfl
  · obtain ⟨_, _, g3⟩ := moveDropdownSelection_step (showDropdown s items ed) items (-1) 0
      z1 h (by simpa using z3) (by omega)
    rw [g3]
    have : ((0 : Nat) : Int) + -1 + (items.length : Int) = ((items.length - 1 : Nat) : Int) := by
      omega
    rw [this, ← Int.natCast_mod, Nat.mod_eq_of_lt (by omega)]

/-- C5, witness: the candidates `xray` and `xenon` of a store to which both were
added; one step down highlights `xenon`, and down-arrow then enter insert
`#xenon `. -/
theorem dropdown_navigation_witness :
    pickedTag (moveMany 1 1 demoList) = some (0, "xenon".toList) ∧
    (handleKeydown (handleKeydown demoList (namedKey "ArrowDown".toList 40)).1
      (namedKey "Enter".toList 13)).1.surfaces = [Surface.flat "#xenon ".toList 7 7] :=
  ⟨(dropdown_navigation demoPlatform [StoreOp.add "xray".toList, StoreOp.add "xenon".toList]
      { State.init [Surface.flat "#x".toList 2 2] (some 0) none [] with
        isTagMode := true, currentTagText := "x".toList, tagStartOffset := some 0 }
      ["xray".toList, "xenon".toList] 0 1 (by decide) (by decide)).2.1, by decide⟩

end LoopHashTag
